import Mathlib

/-!
# notion-rss: dedup index, fingerprints, archival and ingestion loops

A shallow embedding of `notion_dao.go`, `tasks.go` and the index set-up of
`main.go`.

* Go strings are Lean strings; where bytes matter (MD5) a string stands for
  its UTF-8 bytes.
* The Notion client (`github.com/jomei/notionapi`) is outside the program.
  Its three operations are answer functions in `Client`; each is given the
  calls made so far (the `Trace`), so that an answer may depend on everything
  that happened before. The functions of the program thread the trace.
* The packages of the Go standard library that the program calls are written
  out where the properties depend on what they compute (`crypto/md5`,
  `encoding/hex`, `strings`, `time`) and are fields of `Lib` otherwise
  (`regexp`, `net/url`, `fmt` applied to a property map).
* Output on stdout (`fmt.Printf`) is not part of the model.
-/

namespace NotionRss

/-! ## Strings (`strings`, `unicode`) and decimal digits -/

/-- Go `strings.Join`. -/
def stringsJoin (elems : List String) (sep : String) : String :=
  sep.intercalate elems

/-- Go `strings.HasPrefix`. -/
def stringsHasPrefix (s pre : String) : Bool :=
  pre.data.isPrefixOf s.data

/-- Go `strings.ReplaceAll` for a pattern of one character. -/
def stringsReplaceAll (s : String) (old : Char) (new : String) : String :=
  String.mk (s.data.flatMap fun c => if c = old then new.data else [c])

/-- Go `unicode.IsSpace`. -/
def unicodeIsSpace (c : Char) : Bool :=
  let n := c.toNat
  (9 ≤ n && n ≤ 13) || n = 0x20 || n = 0x85 || n = 0xA0 || n = 0x1680 ||
  (0x2000 ≤ n && n ≤ 0x200a) || n = 0x2028 || n = 0x2029 || n = 0x202f ||
  n = 0x205f || n = 0x3000

/-- Go `strings.TrimSpace`. -/
def stringsTrimSpace (s : String) : String :=
  String.mk ((s.data.dropWhile unicodeIsSpace).reverse.dropWhile unicodeIsSpace).reverse

/-- Decimal digits of a natural number, at least `width` of them (Go `appendInt`
for a non-negative argument). -/
def padInt (x width : Nat) : String :=
  let d := Nat.repr x
  String.mk (List.replicate (width - d.length) '0') ++ d

/-- Go `appendInt` (package `time`): sign, then zero-padded decimal digits. -/
def appendInt (x : Int) (width : Nat) : String :=
  if x < 0 then "-" ++ padInt x.natAbs width else padInt x.natAbs width

/-! ## `crypto/md5` and `encoding/hex` -/

/-- UTF-8 bytes of one character. -/
def utf8Char (c : Char) : List Nat :=
  let n := c.toNat
  if n < 0x80 then [n]
  else if n < 0x800 then [0xC0 + n / 0x40, 0x80 + n % 0x40]
  else if n < 0x10000 then [0xE0 + n / 0x1000, 0x80 + n / 0x40 % 0x40, 0x80 + n % 0x40]
  else [0xF0 + n / 0x40000, 0x80 + n / 0x1000 % 0x40, 0x80 + n / 0x40 % 0x40, 0x80 + n % 0x40]

/-- Go `[]byte(s)`. -/
def bytesOf (s : String) : List Nat := s.data.flatMap utf8Char

/-- Per-round left-rotation amounts of MD5 (RFC 1321). -/
def md5Shift : List Nat :=
  [7, 12, 17, 22, 7, 12, 17, 22, 7, 12, 17, 22, 7, 12, 17, 22,
   5, 9, 14, 20, 5, 9, 14, 20, 5, 9, 14, 20, 5, 9, 14, 20,
   4, 11, 16, 23, 4, 11, 16, 23, 4, 11, 16, 23, 4, 11, 16, 23,
   6, 10, 15, 21, 6, 10, 15, 21, 6, 10, 15, 21, 6, 10, 15, 21]

/-- Sine table of MD5 (RFC 1321): entry `i` is `floor (2^32 * |sin (i + 1)|)`. -/
def md5Table : List Nat :=
  [0xd76aa478, 0xe8c7b756, 0x242070db, 0xc1bdceee, 0xf57c0faf, 0x4787c62a,
   0xa8304613, 0xfd469501, 0x698098d8, 0x8b44f7af, 0xffff5bb1, 0x895cd7be,
   0x6b901122, 0xfd987193, 0xa679438e, 0x49b40821, 0xf61e2562, 0xc040b340,
   0x265e5a51, 0xe9b6c7aa, 0xd62f105d, 0x02441453, 0xd8a1e681, 0xe7d3fbc8,
   0x21e1cde6, 0xc33707d6, 0xf4d50d87, 0x455a14ed, 0xa9e3e905, 0xfcefa3f8,
   0x676f02d9, 0x8d2a4c8a, 0xfffa3942, 0x8771f681, 0x6d9d6122, 0xfde5380c,
   0xa4beea44, 0x4bdecfa9, 0xf6bb4b60, 0xbebfbc70, 0x289b7ec6, 0xeaa127fa,
   0xd4ef3085, 0x04881d05, 0xd9d4d039, 0xe6db99e5, 0x1fa27cf8, 0xc4ac5665,
   0xf4292244, 0x432aff97, 0xab9423a7, 0xfc93a039, 0x655b59c3, 0x8f0ccc92,
   0xffeff47d, 0x85845dd1, 0x6fa87e4f, 0xfe2ce6e0, 0xa3014314, 0x4e0811a1,
   0xf7537e82, 0xbd3af235, 0x2ad7d2bb, 0xeb86d391]

/-- Truncation to an unsigned 32-bit word. -/
def w32 (x : Nat) : Nat := x % 4294967296

/-- Left rotation of a 32-bit word. -/
def rotl32 (x c : Nat) : Nat := w32 (x <<< c) ||| (x >>> (32 - c))

/-- Bitwise complement of a 32-bit word. -/
def not32 (x : Nat) : Nat := x ^^^ 0xffffffff

/-- Little-endian 32-bit word made of the first four bytes. -/
def leWord (bs : List Nat) : Nat :=
  bs.getD 0 0 + 256 * (bs.getD 1 0 + 256 * (bs.getD 2 0 + 256 * bs.getD 3 0))

/-- The `n` low bytes of `x`, least significant first. -/
def leBytes : Nat → Nat → List Nat
  | 0, _ => []
  | n + 1, x => x % 256 :: leBytes n (x / 256)

/-- MD5 padding: a one bit, zeros up to 56 modulo 64 bytes, then the length of
the message in bits as a 64-bit little-endian number. -/
def md5Pad (msg : List Nat) : List Nat :=
  let l := msg.length
  let zeros := (55 + 64 - l % 64) % 64
  msg ++ 0x80 :: List.replicate zeros 0 ++ leBytes 8 (8 * l % 18446744073709551616)

/-- The first `n` little-endian words of a byte sequence. -/
def md5Words : Nat → List Nat → List Nat
  | 0, _ => []
  | n + 1, bs => leWord bs :: md5Words n (bs.drop 4)

/-- The four chaining words of MD5. -/
structure Md5State where
  a : Nat
  b : Nat
  c : Nat
  d : Nat

/-- Operation `i` (0 to 63) of the MD5 compression function on the block `m`. -/
def md5Round (m : List Nat) (s : Md5State) (i : Nat) : Md5State :=
  let f :=
    if i < 16 then (s.b &&& s.c) ||| (not32 s.b &&& s.d)
    else if i < 32 then (s.d &&& s.b) ||| (not32 s.d &&& s.c)
    else if i < 48 then s.b ^^^ s.c ^^^ s.d
    else s.c ^^^ (s.b ||| not32 s.d)
  let g :=
    if i < 16 then i
    else if i < 32 then (5 * i + 1) % 16
    else if i < 48 then (3 * i + 5) % 16
    else 7 * i % 16
  let f2 := w32 (f + s.a + md5Table.getD i 0 + m.getD g 0)
  ⟨s.d, w32 (s.b + rotl32 f2 (md5Shift.getD i 0)), s.b, s.c⟩

/-- MD5 compression of one 64-byte block. -/
def md5Block (s : Md5State) (block : List Nat) : Md5State :=
  let m := md5Words 16 block
  let t := (List.range 64).foldl (md5Round m) s
  ⟨w32 (s.a + t.a), w32 (s.b + t.b), w32 (s.c + t.c), w32 (s.d + t.d)⟩

/-- MD5 compression of the first `n` blocks of a byte sequence. -/
def md5Blocks : Nat → Md5State → List Nat → Md5State
  | 0, s, _ => s
  | n + 1, s, bs => md5Blocks n (md5Block s (bs.take 64)) (bs.drop 64)

/-- Go `md5.New()`, `Write(msg)`, `Sum(nil)`: the 16 bytes of the digest. -/
def md5Sum (msg : List Nat) : List Nat :=
  let p := md5Pad msg
  let s := md5Blocks (p.length / 64) ⟨0x67452301, 0xefcdab89, 0x98badcfe, 0x10325476⟩ p
  leBytes 4 s.a ++ leBytes 4 s.b ++ leBytes 4 s.c ++ leBytes 4 s.d

/-- One lower-case hexadecimal digit. -/
def hexDigit (n : Nat) : Char := "0123456789abcdef".data.getD n '0'

/-- Go `hex.EncodeToString`. -/
def hexEncodeToString (bs : List Nat) : String :=
  String.mk (bs.flatMap fun b => [hexDigit (b / 16), hexDigit (b % 16)])

/-! ## `time` -/

/-- Go `time.Duration`: a signed count of nanoseconds. -/
abbrev Duration := Int

/-- Reduction of an integer to the range of `int64` (two's complement). -/
def wrapInt64 (x : Int) : Int :=
  (x + 9223372036854775808) % 18446744073709551616 - 9223372036854775808

/-- Go `time.Hour`. -/
def Hour : Duration := 3600000000000

/-- Go `time.Time`: an instant (`sec` seconds and `nsec` nanoseconds after the
Unix epoch), the zone that the value's location has at that instant
(abbreviation and seconds east of UTC), and the reading of the monotonic clock
in nanoseconds when the value carries one. -/
structure Time where
  sec : Int
  nsec : Nat
  zoneName : String
  zoneOffset : Int
  mono : Option Int
deriving DecidableEq, Repr

/-- Civil date (year, month, day) of a day number counted from 1970-01-01 in
the proleptic Gregorian calendar. -/
def civilDate (days : Int) : Int × Int × Int :=
  let z := days + 719468
  let era := z / 146097
  let doe := z % 146097
  let yoe := (doe - doe / 1460 + doe / 36524 - doe / 146096) / 365
  let doy := doe - (365 * yoe + yoe / 4 - yoe / 100)
  let mp := (5 * doy + 2) / 153
  let d := doy - (153 * mp + 2) / 5 + 1
  let m := if mp < 10 then mp + 3 else mp - 9
  let y := yoe + era * 400 + (if m ≤ 2 then 1 else 0)
  (y, m, d)

/-- Fraction of a second as Go prints it for the layout element `.999999999`:
nothing for zero, otherwise the nine digits without trailing zeros. -/
def fracSecond (nsec : Nat) : String :=
  if nsec = 0 then ""
  else "." ++ String.mk ((padInt nsec 9).data.reverse.dropWhile (fun c => c = '0')).reverse

/-- Zone offset as Go prints it for the layout element `-0700`. -/
def zoneHHMM (offset : Int) : String :=
  let zone := offset.tdiv 60
  (if zone < 0 then "-" else "+") ++ padInt (zone.natAbs / 60) 2 ++ padInt (zone.natAbs % 60) 2

/-- Monotonic clock reading as `Time.String` appends it: `m=±sec.nanoseconds`. -/
def monoSuffix (ext : Int) : String :=
  let m2 := ext.natAbs
  let m1 := m2 / 1000000000
  let m0 := m1 / 1000000000
  " m=" ++ (if ext < 0 then "-" else "+") ++
    (if m0 ≠ 0 then padInt m0 0 ++ padInt (m1 % 1000000000) 9 else padInt (m1 % 1000000000) 0) ++
    "." ++ padInt (m2 % 1000000000) 9

/-- Go `Time.Format(time.RFC3339)`, the text in which the client sends a
`notionapi.Date`: date and clock time in the zone of the value down to the
second, then `Z` for offset zero and the offset in hours and minutes otherwise.
The fraction of the second is not printed. -/
def Time.RFC3339 (t : Time) : String :=
  let abs := t.sec + t.zoneOffset
  let (y, m, d) := civilDate (abs / 86400)
  let s := abs % 86400
  let zone := t.zoneOffset.tdiv 60
  appendInt y 4 ++ "-" ++ appendInt m 2 ++ "-" ++ appendInt d 2 ++ "T" ++
    appendInt (s / 3600) 2 ++ ":" ++ appendInt (s % 3600 / 60) 2 ++ ":" ++ appendInt (s % 60) 2 ++
    (if t.zoneOffset = 0 then "Z"
     else (if zone < 0 then "-" else "+") ++ padInt (zone.natAbs / 60) 2 ++ ":" ++
       padInt (zone.natAbs % 60) 2)

/-- Go `Time.String`: the layout `2006-01-02 15:04:05.999999999 -0700 MST`
in the zone of the value, followed by the monotonic clock reading if any. -/
def Time.String (t : Time) : String :=
  let abs := t.sec + t.zoneOffset
  let (y, m, d) := civilDate (abs / 86400)
  let s := abs % 86400
  appendInt y 4 ++ "-" ++ appendInt m 2 ++ "-" ++ appendInt d 2 ++ " " ++
    appendInt (s / 3600) 2 ++ ":" ++ appendInt (s % 3600 / 60) 2 ++ ":" ++ appendInt (s % 60) 2 ++
    fracSecond t.nsec ++ " " ++ zoneHHMM t.zoneOffset ++ " " ++
    (if t.zoneName ≠ "" then t.zoneName else zoneHHMM t.zoneOffset) ++
    (match t.mono with
     | some ext => monoSuffix ext
     | none => "")

/-- Go `Time.Add`: the instant moved by `d` nanoseconds. The zone is kept, as
in a location with a single zone, and a monotonic reading moves along (it is
dropped if it leaves `int64`). Seconds are unbounded here; Go saturates them
at the ends of `int64`. -/
def Time.Add (t : Time) (d : Duration) : Time :=
  let dsec := d.tdiv 1000000000
  let nsec := (t.nsec : Int) + d.tmod 1000000000
  let (dsec, nsec) :=
    if nsec ≥ 1000000000 then (dsec + 1, nsec - 1000000000)
    else if nsec < 0 then (dsec - 1, nsec + 1000000000)
    else (dsec, nsec)
  { t with
    sec := t.sec + dsec
    nsec := nsec.toNat
    mono := match t.mono with
      | some ext => if wrapInt64 (ext + d) = ext + d then some (ext + d) else none
      | none => none }

/-- The instant of `t` is strictly before the instant of `u` (Go `Time.Before`
on values without monotonic clock reading). -/
def Time.instantBefore (t u : Time) : Bool :=
  t.sec < u.sec || (t.sec = u.sec && t.nsec < u.nsec)

/-- The two values denote the same instant, whatever their zones (Go
`Time.Equal` on values without monotonic clock reading). -/
def Time.sameInstant (t u : Time) : Bool :=
  t.sec = u.sec && t.nsec = u.nsec

/-- The time that the text `t.RFC3339` denotes, which is what the receiver of
the text reads: the clock time of `t` down to the second at the printed
offset. The fraction of the second is lost, and so are the seconds of an
offset that is not a whole number of minutes. (The text has this meaning for
the years 0 to 9999, which it prints in four digits.) -/
def Time.onWire (t : Time) : Time :=
  { sec := t.sec + t.zoneOffset.tmod 60
    nsec := 0
    zoneName := ""
    zoneOffset := t.zoneOffset.tdiv 60 * 60
    mono := none }

/-! ## Data of the Notion client (`notionapi`) and of the program -/

/-- Go `error`: `none` is `nil`, `some msg` an error with that message. -/
abbrev GoError := Option String

/-- Outcome of a Go function that may panic instead of returning. -/
inductive Run (α : Type) where
  | returned (a : α)
  | panicked
deriving DecidableEq, Repr

/-- A parsed link (Go `*url.URL`). The program reads a link back only through
its `String` method, so a link is represented by that text. -/
structure URL where
  text : String
deriving DecidableEq, Repr

/-- Go `URL.String`. -/
def URL.String (u : URL) : String := u.text

/-- The `Text` part of `notionapi.RichText`. -/
structure Text where
  Content : String := ""
deriving DecidableEq, Repr

/-- One segment of rich text (`notionapi.RichText`). -/
structure RichText where
  Type_ : String := ""
  Text : Text := {}
  PlainText : String := ""
deriving DecidableEq, Repr

/-- The `notionapi.Option` of a select property. -/
structure SelectOption where
  Name : String := ""
deriving DecidableEq, Repr

/-- A property value (`notionapi.Property`), one constructor for each property
type the program writes or reads. In a page returned by the client these
stand for the pointer types the client decodes (`*URLProperty`,
`*TitleProperty`, `*RichTextProperty`, ...). -/
inductive Property where
  | title (Type_ : String) (Title : List RichText)
  | richText (Type_ : String) (RichText : List RichText)
  | url (Type_ : String) (URL : String)
  | multiSelect (MultiSelect : List SelectOption)
  | select (Select : SelectOption)
  | date (Start : Option Time)
  | checkbox (Checkbox : Bool)
  | createdTime (CreatedTime : Time)
deriving DecidableEq, Repr

/-- A property map (`notionapi.Properties`, a Go `map[string]Property`) as an
association list; a key is looked up with `List.lookup`. -/
abbrev Properties := List (String × Property)

/-- The fields of `notionapi.Page` that the program reads. -/
structure Page where
  ID : String
  CreatedTime : Time
  LastEditedTime : Time
  Properties : Properties
deriving DecidableEq, Repr

/-- The `notionapi.DateFilterCondition` fields in use. The condition carries the
Go time value; the client sends it as the text `Time.RFC3339`. -/
structure DateFilterCondition where
  Before : Option Time := none
deriving DecidableEq, Repr

/-- The `notionapi.CheckboxFilterCondition`; both fields are sent only when
true (`omitempty`). -/
structure CheckboxFilterCondition where
  Equals : Bool := false
  DoesNotEqual : Bool := false
deriving DecidableEq, Repr

/-- The `notionapi.PropertyFilter` fields in use. -/
structure PropertyFilter where
  Property : String
  Date : Option DateFilterCondition := none
  Checkbox : Option CheckboxFilterCondition := none
deriving DecidableEq, Repr

/-- A query filter (`notionapi.Filter`): a property filter, or the conjunction
`AndCompoundFilter`; the program nests no compound filter in another. -/
inductive Filter where
  | property (f : PropertyFilter)
  | andCompound (fs : List PropertyFilter)
deriving DecidableEq, Repr

/-- The `notionapi.DatabaseQueryRequest`; the program sets no cursor and no page size. -/
structure DatabaseQueryRequest where
  Filter : Option Filter := none
deriving DecidableEq, Repr

/-- The `notionapi.DatabaseQueryResponse` fields. -/
structure DatabaseQueryResponse where
  Results : List Page
  HasMore : Bool := false
deriving DecidableEq, Repr

/-- The `notionapi.PageUpdateRequest`. -/
structure PageUpdateRequest where
  Archived : Bool
  Properties : Properties
deriving DecidableEq, Repr

/-- The `notionapi.Parent` of a new page. -/
structure Parent where
  Type_ : String
  DatabaseID : String
deriving DecidableEq, Repr

/-- A block (`notionapi.Block`); the program builds embed blocks only. -/
structure EmbedBlock where
  Object : String
  Type_ : String
  URL : String
deriving DecidableEq, Repr

/-- The `notionapi.Image` with an external file. -/
structure Image where
  Type_ : String
  ExternalURL : String
deriving DecidableEq, Repr

/-- The `notionapi.PageCreateRequest`. -/
structure PageCreateRequest where
  Parent : Parent
  Properties : Properties
  Children : List EmbedBlock
  Cover : Option Image
deriving DecidableEq, Repr

/-- One call to the Notion client. -/
inductive Call where
  | databaseQuery (id : String) (req : DatabaseQueryRequest)
  | pageUpdate (id : String) (req : PageUpdateRequest)
  | pageCreate (req : PageCreateRequest)
deriving DecidableEq, Repr

/-- The calls made to the Notion client so far, oldest first. -/
abbrev Trace := List Call

/-- The Notion client (`*notionapi.Client`): what each operation answers, given
the calls made before it. The page that `Update` and `Create` return beside
the error is dropped by the program and left out here. -/
structure Client where
  databaseQuery : Trace → String → DatabaseQueryRequest → Except String DatabaseQueryResponse
  pageUpdate : Trace → String → PageUpdateRequest → GoError
  pageCreate : Trace → PageCreateRequest → GoError

/-- Functions of the Go standard library whose result the program only passes on. -/
structure Lib where
  /-- Go `regexp.MustCompile(pattern).FindSubmatch`, groups as strings. -/
  regexpFindSubmatch : String → String → Option (List String)
  /-- Go `regexp.MustCompile(pattern).ReplaceAllString(src, repl)`. -/
  regexpReplaceAllString : String → String → String → String
  /-- Go `url.Parse`. -/
  urlParse : String → Except String URL
  /-- Go `fmt` verb `%s` applied to a property map. -/
  sprintProperties : Properties → String

/-- The dedup index (Go `map[string]string`) as an association list. -/
abbrev HashIndex := List (String × String)

/-- Go `m[k] = v`. -/
def HashIndex.set (m : HashIndex) (k v : String) : HashIndex :=
  (k, v) :: m.filter fun e => e.1 != k

/-- Go `NotionDao`. `globalHash` is the map that `main` allocates before any use. -/
structure NotionDao where
  feedDatabaseId : String
  contentDatabaseId : String
  client : Client
  globalHash : HashIndex

/-- Modelled from the spec: the declaration of `FeedDatabaseItem` is not among
the sources; these are the fields that `GetRssFeedFromDatabaseObject` fills
(the spec's FeedDescriptor: name, source URL, timestamps). `FeedLink` is a
pointer, `none` in the zero value. -/
structure FeedDatabaseItem where
  FeedLink : Option URL
  Created : Time
  LastModified : Time
  Name : String
deriving DecidableEq, Repr

/-- Modelled from the spec: the declaration of `RssItem` is not among the
sources; these are the fields that `AddRssItem` reads (the spec's
NormalizedItem: title, link, publication timestamp, content, description,
categories, origin feed name). `published` and `description` are pointers in
Go; items of the content stream have both set. -/
structure RssItem where
  title : String
  link : URL
  content : List String
  categories : List String
  feedName : String
  published : Time
  description : String
deriving DecidableEq, Repr

/-- Go zero value of `time.Time`: January 1, year 1, 00:00 UTC. -/
def zeroTime : Time := ⟨-62135596800, 0, "UTC", 0, none⟩

/-! ## `notion_dao.go` -/

/-- The query request that `GetOldUnstarredRSSItems` builds: "Created" before
`olderThan` and "Starred" with `Equals: false, DoesNotEqual: true`. -/
def oldUnstarredRequest (olderThan : Time) : DatabaseQueryRequest :=
  { Filter := some (Filter.andCompound [
      { Property := "Created", Date := some { Before := some olderThan } },
      { Property := "Starred", Checkbox := some { Equals := false, DoesNotEqual := true } }]) }

/-- The Go method `GetOldUnstarredRSSItems`: pages created strictly before
`olderThan` that are not starred, as the client returns them; no page when the
query fails. -/
def GetOldUnstarredRSSItems (dao : NotionDao) (olderThan : Time) (tr : Trace) :
    Trace × List Page :=
  let req := oldUnstarredRequest olderThan
  let tr1 := tr ++ [Call.databaseQuery dao.contentDatabaseId req]
  match dao.client.databaseQuery tr dao.contentDatabaseId req with
  | .error _ => (tr1, [])
  | .ok resp => (tr1, resp.Results)

/-- The Go method `GetOldUnstarredRSSItemIds`. -/
def GetOldUnstarredRSSItemIds (dao : NotionDao) (olderThan : Time) (tr : Trace) :
    Trace × List String :=
  let (tr1, pages) := GetOldUnstarredRSSItems dao olderThan tr
  (tr1, pages.map fun page => page.ID)

/-- The `for` loop of `ArchivePages`, with its counter `failedCount` (a Go
`int`, which a count of list elements does not overflow). -/
def ArchivePages.loop (dao : NotionDao) : List String → Trace → Nat → Trace × Nat
  | [], tr, failedCount => (tr, failedCount)
  | p :: rest, tr, failedCount =>
    let req : PageUpdateRequest := { Archived := true, Properties := [] }
    let err := dao.client.pageUpdate tr p req
    ArchivePages.loop dao rest (tr ++ [Call.pageUpdate p req])
      (if err ≠ none then failedCount + 1 else failedCount)

/-- The Go method `ArchivePages`: archives each page even if other pages fail. -/
def ArchivePages (dao : NotionDao) (pageIds : List String) (tr : Trace) : Trace × GoError :=
  let (tr1, failedCount) := ArchivePages.loop dao pageIds tr 0
  if failedCount > 0 then
    (tr1, some ("failed to archive " ++ Nat.repr failedCount ++ " pages"))
  else (tr1, none)

/-- Go `GetRssFeedFromDatabaseObject`. The two type assertions
`.(*notionapi.URLProperty)` and `.(*notionapi.TitleProperty)` have no `ok`
result and panic on a property of another type. -/
def GetRssFeedFromDatabaseObject (lib : Lib) (p : Page) : Run (FeedDatabaseItem × GoError) :=
  let zero : FeedDatabaseItem := ⟨none, zeroTime, zeroTime, ""⟩
  match p.Properties.lookup "Link", p.Properties.lookup "Title" with
  | none, _ => .returned (zero, some
      ("notion page is expected to have `Link` and `Title` properties. Properties: " ++
        lib.sprintProperties p.Properties))
  | _, none => .returned (zero, some
      ("notion page is expected to have `Link` and `Title` properties. Properties: " ++
        lib.sprintProperties p.Properties))
  | some (Property.url _ urlProperty), some titleProperty =>
    match lib.urlParse urlProperty with
    | .error err => .returned (zero, some err)
    | .ok rssUrl =>
      match titleProperty with
      | Property.title _ nameRichTexts =>
        match nameRichTexts with
        | [] => .returned (zero, some
            "RSS Feed database entry does not have any Title in 'Title' field")
        | first :: _ => .returned (⟨some rssUrl, p.CreatedTime, p.LastEditedTime,
            first.PlainText⟩, none)
      | _ => .panicked
  | some _, some _ => .panicked

/-- What the goroutine of `GetEnabledRssFeeds` does with its channel: the
descriptors sent, in order, and whether it panicked (which ends the process). -/
structure FeedStream where
  sent : List FeedDatabaseItem
  panicked : Bool
deriving DecidableEq, Repr

/-- The `for` loop of `GetEnabledRssFeeds` over the records of the response. -/
def GetEnabledRssFeeds.loop (lib : Lib) : List Page → FeedStream
  | [] => ⟨[], false⟩
  | r :: rest =>
    match GetRssFeedFromDatabaseObject lib r with
    | .panicked => ⟨[], true⟩
    | .returned (feed, err) =>
      if err = none then
        let s := GetEnabledRssFeeds.loop lib rest
        ⟨feed :: s.sent, s.panicked⟩
      else GetEnabledRssFeeds.loop lib rest

/-- The query request that `GetEnabledRssFeeds` builds: "Enabled" equals true. -/
def enabledFeedsRequest : DatabaseQueryRequest :=
  { Filter := some (Filter.property
      { Property := "Enabled", Checkbox := some { Equals := true } }) }

/-- The Go method `GetEnabledRssFeeds`: the feed records with "Enabled" set. -/
def GetEnabledRssFeeds (lib : Lib) (dao : NotionDao) (tr : Trace) : Trace × FeedStream :=
  let req := enabledFeedsRequest
  let tr1 := tr ++ [Call.databaseQuery dao.feedDatabaseId req]
  match dao.client.databaseQuery tr dao.feedDatabaseId req with
  | .error _ => (tr1, ⟨[], false⟩)
  | .ok resp => (tr1, GetEnabledRssFeeds.loop lib resp.Results)

/-- Go `GetImageUrl`: the first image source of the document, if it starts with "http". -/
def GetImageUrl (lib : Lib) (x : String) : Option String :=
  match lib.regexpFindSubmatch "(?m)<img\\b[^>]+?src\\s*=\\s*['\"]?([^\\s'\"?#>]+)" x with
  | some m =>
    let v := m.getD 1 ""
    if stringsHasPrefix v "http" then some v else none
  | none => none

/-- Go `removeHtmlAndGarbage`. -/
def removeHtmlAndGarbage (lib : Lib) (input : String) : String :=
  let cleaned := lib.regexpReplaceAllString "<[^>]*>" input ""
  let cleaned := stringsReplaceAll cleaned '\n' " "
  let cleaned := stringsReplaceAll cleaned '\r' ""
  let cleaned := stringsTrimSpace cleaned
  lib.regexpReplaceAllString "&#[0-9A-F]+;" cleaned ""

/-- The Go method `AddRssItem`: one new page for the item, unless the hash of
the item is in `globalHash`. No retry on failure. -/
def AddRssItem (lib : Lib) (dao : NotionDao) (item : RssItem) (tr : Trace) : Trace × GoError :=
  let categories := item.categories.map fun c => ({ Name := c } : SelectOption)
  let image := GetImageUrl lib (stringsJoin item.content " ")
  let imageProp : Option Image :=
    match image with
    | some u => some { Type_ := "external", ExternalURL := u }
    | none => none
  let stringsToConcat := [item.title, item.link.String, item.published.String]
  let concatenatedString := stringsJoin stringsToConcat ""
  let hash := hexEncodeToString (md5Sum (bytesOf concatenatedString))
  if (dao.globalHash.lookup hash).isSome then (tr, none)
  else
    let description := removeHtmlAndGarbage lib item.description
    let children : List EmbedBlock :=
      [{ Object := "block", Type_ := "embed", URL := item.link.String }]
    let req : PageCreateRequest :=
      { Parent := { Type_ := "database_id", DatabaseID := dao.contentDatabaseId }
        Properties := [
          ("Title", Property.title "title" [{ Type_ := "text", Text := { Content := item.title } }]),
          ("Description", Property.richText "rich_text"
            [{ Type_ := "text", Text := { Content := description }, PlainText := description }]),
          ("Link", Property.url "url" item.link.String),
          ("Categories", Property.multiSelect categories),
          ("From", Property.select { Name := item.feedName }),
          ("Published", Property.date (some item.published)),
          ("hash", Property.richText "rich_text"
            [{ Type_ := "text", Text := { Content := hash }, PlainText := hash }])]
        Children := children
        Cover := imageProp }
    (tr ++ [Call.pageCreate req], dao.client.pageCreate tr req)

/-! ## `tasks.go` and the index set-up of `main.go` -/

/-- Go `ArchiveOldUnstarredContent`, run at time `now`. -/
def ArchiveOldUnstarredContent (dao : NotionDao) (now : Time) (tr : Trace) : Trace × GoError :=
  let (tr1, pageIds) := GetOldUnstarredRSSItemIds dao (now.Add (wrapInt64 (-30 * Hour * 24))) tr
  ArchivePages dao pageIds tr1

/-- The local `last24Hours` of `AddNewContent`: the cutoff handed to `GetRssContent`. -/
def last24Hours (now : Time) : Time :=
  now.Add (wrapInt64 (-1 * Hour * 24 * 365 * 30))

/-- The `for` loop of `AddNewContent` over the items, with its counter
`failedCount` (a Go `int`, which a count of items does not overflow). -/
def AddNewContent.loop (lib : Lib) (dao : NotionDao) : List RssItem → Trace → Nat → Trace × Nat
  | [], tr, failedCount => (tr, failedCount)
  | item :: rest, tr, failedCount =>
    let (tr1, err) := AddRssItem lib dao item tr
    AddNewContent.loop lib dao rest tr1 (if err ≠ none then failedCount + 1 else failedCount)

/-- Go `AddNewContent`, run at time `now`. `GetRssContent` (not among the
sources) is a parameter: the items it delivers for the feeds and the cutoff.
A panic of the feed goroutine ends the process; how far the loop got by then
depends on scheduling and is not described. -/
def AddNewContent (lib : Lib) (GetRssContent : List FeedDatabaseItem → Time → List RssItem)
    (dao : NotionDao) (now : Time) (tr : Trace) : Run (Trace × GoError) :=
  let (tr1, rssFeeds) := GetEnabledRssFeeds lib dao tr
  if rssFeeds.panicked then .panicked
  else
    let rssContent := GetRssContent rssFeeds.sent (last24Hours now)
    let (tr2, failedCount) := AddNewContent.loop lib dao rssContent tr1 0
    if failedCount > 0 then
      .returned (tr2, some (Nat.repr failedCount ++
        " Rss item/s failed to be created in the notion database. See errors above"))
    else .returned (tr2, none)

/-- Go `GetHashMap`: every text segment of the "hash" property of every record
of the content database becomes a key of `globalHash`, mapped to itself. -/
def GetHashMap (dao : NotionDao) (tr : Trace) : Trace × NotionDao × GoError :=
  let req : DatabaseQueryRequest := {}
  let tr1 := tr ++ [Call.databaseQuery dao.contentDatabaseId req]
  match dao.client.databaseQuery tr dao.contentDatabaseId req with
  | .error err => (tr1, dao, some err)
  | .ok resp =>
    let globalHash := resp.Results.foldl (fun m result =>
      match result.Properties.lookup "hash" with
      | some (Property.richText _ hashValue) =>
        hashValue.foldl (fun m text => HashIndex.set m text.Text.Content text.Text.Content) m
      | _ => m) dao.globalHash
    (tr1, { dao with globalHash := globalHash }, none)

/-- Lines 13 to 15 of `main`: a fresh empty index, filled by `GetHashMap`, whose
error is discarded. -/
def mainGetHash (dao : NotionDao) (tr : Trace) : Trace × NotionDao :=
  let nDao := { dao with globalHash := [] }
  let (tr1, nDao, _) := GetHashMap nDao tr
  (tr1, nDao)

/-! ## Vocabulary of the properties -/

/-- The keys of the dedup index. -/
def HashIndex.keys (m : HashIndex) : List String := m.map Prod.fst

/-- The string that `AddRssItem` hands to the hash: title, link string and
timestamp string, nothing in between. -/
def hashInput (item : RssItem) : String :=
  item.title ++ item.link.String ++ item.published.String

/-- The fingerprint of an item in the words of the specification: the
hexadecimal MD5 digest of title + link string + published string. -/
def fingerprint (item : RssItem) : String :=
  hexEncodeToString (md5Sum (bytesOf (hashInput item)))

/-- The text that a create request carries in its "hash" property. -/
def PageCreateRequest.hash (req : PageCreateRequest) : Option String :=
  match req.Properties.lookup "hash" with
  | some (Property.richText _ [text]) => some text.Text.Content
  | _ => none

/-- Number of create-page calls of a trace whose "hash" property carries `x`. -/
def createCallsFor (x : String) (tr : Trace) : Nat :=
  tr.countP fun c =>
    match c with
    | .pageCreate req => req.hash == some x
    | _ => false

/-- One call of `AddRssItem` for each item of the stream, in stream order, each
on the trace that the previous call left: the final trace and the error of
each call. -/
def runItems (lib : Lib) (dao : NotionDao) : List RssItem → Trace → Trace × List GoError
  | [], tr => (tr, [])
  | item :: rest, tr =>
    let r := AddRssItem lib dao item tr
    let s := runItems lib dao rest r.1
    (s.1, r.2 :: s.2)

/-- The update call that archives page `p`: the page id with `Archived` set and
no property changed. -/
def archiveCall (p : String) : Call :=
  Call.pageUpdate p { Archived := true, Properties := [] }

/-- What the client answers to the archiving update call on the `i`-th id of
the list, when the ids before it have been updated once each, in list order. -/
def updateAnswer (dao : NotionDao) (pageIds : List String) (tr : Trace) (i : Nat) : GoError :=
  dao.client.pageUpdate (tr ++ (pageIds.take i).map archiveCall) (pageIds.getD i "")
    { Archived := true, Properties := [] }

/-- Number of ids of the list whose update call fails. -/
def failedUpdates (dao : NotionDao) (pageIds : List String) (tr : Trace) : Nat :=
  (List.range pageIds.length).countP fun i => updateAnswer dao pageIds tr i != none

/-- The store's side of a checkbox condition, after the Notion API reference:
`equals` and `does_not_equal` compare with `true`; a field that is false is
not sent. -/
def CheckboxFilterCondition.holds (c : CheckboxFilterCondition) (b : Bool) : Bool :=
  (!c.Equals || b) && (!c.DoesNotEqual || !b)

/-- The store's side of a date condition: the store reads the time that the
client sent as text (`Time.onWire`), and `before` is strict. -/
def DateFilterCondition.holds (c : DateFilterCondition) (t : Time) : Bool :=
  match c.Before with
  | some u => t.instantBefore u.onWire
  | none => true

/-- The store's side of a property filter: the record has the property and
the property meets every condition of the filter. -/
def PropertyFilter.holds (f : PropertyFilter) (p : Page) : Bool :=
  match p.Properties.lookup f.Property with
  | none => false
  | some v =>
    (match f.Date with
     | none => true
     | some c =>
       match v with
       | .createdTime t => c.holds t
       | .date (some t) => c.holds t
       | _ => false) &&
    (match f.Checkbox with
     | none => true
     | some c =>
       match v with
       | .checkbox b => c.holds b
       | _ => false)

/-- The store's side of a filter. -/
def Filter.holds : Filter → Page → Bool
  | .property f, p => f.holds p
  | .andCompound fs, p => fs.all fun f => f.holds p

/-- The records that a query request selects. -/
def DatabaseQueryRequest.holds (q : DatabaseQueryRequest) (p : Page) : Bool :=
  match q.Filter with
  | none => true
  | some f => f.holds p

/-- The "Created" time of a content record. -/
def Page.created (p : Page) : Option Time :=
  match p.Properties.lookup "Created" with
  | some (.createdTime t) => some t
  | some (.date (some t)) => some t
  | _ => none

/-- The "Starred" flag of a content record. -/
def Page.starred (p : Page) : Option Bool :=
  match p.Properties.lookup "Starred" with
  | some (.checkbox b) => some b
  | _ => none

/-- A content record is expired at `cutoff`: created strictly before it and not starred. -/
def expired (cutoff : Time) (p : Page) : Bool :=
  (match p.created with
   | some t => t.instantBefore cutoff
   | none => false) && p.starred == some false

/-- The "Link" property of a feed record, when present, is a URL property and
its "Title" property, when present, is a title property. -/
def feedSchemaOk (p : Page) : Bool :=
  (match p.Properties.lookup "Link" with
   | none => true
   | some (.url _ _) => true
   | some _ => false) &&
  (match p.Properties.lookup "Title" with
   | none => true
   | some (.title _ _) => true
   | some _ => false)

/-- The descriptor of a feed record on which `GetRssFeedFromDatabaseObject` succeeds. -/
def feedOf (lib : Lib) (p : Page) : Option FeedDatabaseItem :=
  match GetRssFeedFromDatabaseObject lib p with
  | .returned (feed, none) => some feed
  | _ => none

/-- The items that `AddNewContent` receives from `GetRssContent`. -/
def contentStream (lib : Lib) (GetRssContent : List FeedDatabaseItem → Time → List RssItem)
    (dao : NotionDao) (now : Time) (tr : Trace) : List RssItem :=
  GetRssContent (GetEnabledRssFeeds lib dao tr).2.sent (last24Hours now)


/-- The text that `Time.String` prints for the layout element `MST`: the zone
abbreviation, or the offset in the form `-0700` when the abbreviation is empty. -/
def zoneTextOf (t : Time) : String :=
  if t.zoneName ≠ "" then t.zoneName else zoneHHMM t.zoneOffset

/-- The text that `Time.String` appends for the monotonic clock reading. -/
def monoTextOf (t : Time) : String :=
  match t.mono with
  | some ext => monoSuffix ext
  | none => ""

/-- The text that `Time.String` prints before the zone abbreviation: date, clock
time and fraction at the given offset, and the offset. -/
def clockTextOf (sec : Int) (nsec : Nat) (offset : Int) : String :=
  let abs := sec + offset
  let (y, m, d) := civilDate (abs / 86400)
  let s := abs % 86400
  appendInt y 4 ++ "-" ++ appendInt m 2 ++ "-" ++ appendInt d 2 ++ " " ++
    appendInt (s / 3600) 2 ++ ":" ++ appendInt (s % 3600 / 60) 2 ++ ":" ++ appendInt (s % 60) 2 ++
    fracSecond nsec ++ " " ++ zoneHHMM offset ++ " "

/-! ## Example data -/

/-- Library functions for the examples: no image is found, the replacement
finds nothing to replace, every non-empty link parses to itself. The example
items contain no tag, no character reference and no image. -/
def exampleLib : Lib :=
  { regexpFindSubmatch := fun _ _ => none
    regexpReplaceAllString := fun _ src _ => src
    urlParse := fun s => if s = "" then .error "empty url" else .ok ⟨s⟩
    sprintProperties := fun _ => "map[]" }

/-- A client on which every call succeeds and every query finds no record. -/
def okClient : Client :=
  { databaseQuery := fun _ _ _ => .ok { Results := [] }
    pageUpdate := fun _ _ _ => none
    pageCreate := fun _ _ => none }

/-- A client on which every call fails. -/
def downClient : Client :=
  { databaseQuery := fun _ _ _ => .error "service unavailable"
    pageUpdate := fun _ _ _ => some "service unavailable"
    pageCreate := fun _ _ => some "service unavailable" }

/-- A client whose update call fails on page "2" only. -/
def failOnTwoClient : Client :=
  { okClient with pageUpdate := fun _ p _ => if p = "2" then some "conflict" else none }

/-- A client whose create call fails when one create call has been made before. -/
def secondCreateFailsClient : Client :=
  { okClient with
    pageCreate := fun tr _ =>
      if tr.countP (fun c => match c with | .pageCreate _ => true | _ => false) = 1 then
        some "rate limited"
      else none }

/-- The time 2006-01-02 15:04:05 UTC. -/
def t2006utc : Time := ⟨1136214245, 0, "UTC", 0, none⟩

/-- The same instant as `t2006utc` in a fixed zone eight hours east of UTC. -/
def t2006east : Time := ⟨1136214245, 0, "", 28800, none⟩

/-- An item published at `t2006utc`. -/
def itemA : RssItem :=
  { title := "Post", link := ⟨"https://example.com/post"⟩, content := ["text"],
    categories := ["go"], feedName := "Example", published := t2006utc,
    description := "text" }

/-- The item `itemA` with its timestamp in another zone. -/
def itemAEast : RssItem := { itemA with published := t2006east }

/-- Another item. -/
def itemB : RssItem :=
  { title := "Other", link := ⟨"https://example.com/other"⟩, content := [],
    categories := [], feedName := "Example", published := t2006utc,
    description := "" }

/-- An item whose title ends in a piece of a path. -/
def itemSlash1 : RssItem := { itemB with title := "a/b", link := ⟨"/c"⟩ }

/-- An item whose link starts with that piece. -/
def itemSlash2 : RssItem := { itemB with title := "a", link := ⟨"/b/c"⟩ }

/-- A dao whose index holds the fingerprint of `itemA` and one more key. -/
def indexedDao : NotionDao :=
  ⟨"feeds", "content", okClient,
    [("0d3edd6148741b3d38f8425af931f4ac", "0d3edd6148741b3d38f8425af931f4ac"), ("f2", "f2")]⟩

/-- A content record with a "Created" time and a "Starred" flag. -/
def contentRecord (id : String) (created : Time) (starred : Bool) : Page :=
  { ID := id, CreatedTime := created, LastEditedTime := created,
    Properties := [("Created", .createdTime created), ("Starred", .checkbox starred)] }

/-- A store of four content records around the cutoff `t2006utc`: an old
unstarred one, an old starred one, an unstarred one created at the cutoff and
an unstarred one created after it. -/
def exampleStore : List Page :=
  [contentRecord "p1" ⟨1136214244, 999999999, "UTC", 0, none⟩ false,
   contentRecord "p2" ⟨1000000000, 0, "UTC", 0, none⟩ true,
   contentRecord "p3" t2006east false,
   contentRecord "p4" ⟨1136214246, 0, "UTC", 0, none⟩ false]

/-- A client that answers a query with the records of `store` that the request selects. -/
def storeClient (store : List Page) : Client :=
  { okClient with
    databaseQuery := fun _ _ q => .ok { Results := store.filter q.holds, HasMore := false } }

/-- The time 2006-01-02 15:04:05.5 UTC, half a second after `t2006utc`. -/
def cutoffHalf : Time := ⟨1136214245, 500000000, "UTC", 0, none⟩

/-- Two unstarred content records: one created a second before `t2006utc`, one
created 0.2 seconds after it, both before `cutoffHalf`. -/
def secondStore : List Page :=
  [contentRecord "q0" ⟨1136214244, 0, "UTC", 0, none⟩ false,
   contentRecord "q1" ⟨1136214245, 200000000, "UTC", 0, none⟩ false]

/-- A feed record with the given properties. -/
def feedRecord (id : String) (props : Properties) : Page :=
  { ID := id, CreatedTime := t2006utc, LastEditedTime := t2006utc, Properties := props }

/-- A well-formed feed record. -/
def goodFeed : Page :=
  feedRecord "f1" [("Link", .url "url" "https://example.com/rss"),
    ("Title", .title "title" [{ Type_ := "text", PlainText := "Example" }]),
    ("Enabled", .checkbox true)]

/-- A feed record without a "Link" property. -/
def noLinkFeed : Page :=
  feedRecord "f2" [("Title", .title "title" [{ PlainText := "No link" }])]

/-- A feed record with an empty title. -/
def emptyTitleFeed : Page :=
  feedRecord "f3" [("Link", .url "url" "https://example.com/rss"), ("Title", .title "title" [])]

/-- A feed record whose "Link" property is a text property, not a URL property. -/
def textLinkFeed : Page :=
  feedRecord "f4" [("Link", .richText "rich_text" [{ PlainText := "https://example.com/rss" }]),
    ("Title", .title "title" [{ PlainText := "Text link" }])]

/-- A client that answers every query with the given records. -/
def recordsClient (records : List Page) : Client :=
  { okClient with databaseQuery := fun _ _ _ => .ok { Results := records } }

/-- Another well-formed feed record. -/
def otherFeed : Page :=
  feedRecord "f5" [("Link", .url "url" "https://example.org/atom"),
    ("Title", .title "title" [{ Type_ := "text", PlainText := "Mirror" }]),
    ("Enabled", .checkbox true)]

/-- A dao with an empty index whose feed database holds two enabled feeds. -/
def twoFeedsDao : NotionDao :=
  ⟨"feeds", "content", recordsClient [goodFeed, otherFeed], []⟩

/-- A content source in which every feed delivers the item `itemA`. -/
def sameItemFromEveryFeed : List FeedDatabaseItem → Time → List RssItem :=
  fun feeds _ => feeds.map fun _ => itemA

/-- A content record with the given properties. -/
def hashRecord (id : String) (props : Properties) : Page :=
  { ID := id, CreatedTime := t2006utc, LastEditedTime := t2006utc, Properties := props }

/-- Records of a content database: two with a stored fingerprint, one without
"hash" property, one whose "hash" property is a checkbox, one with the first
fingerprint again. -/
def hashRecords : List Page :=
  [hashRecord "c1" [("hash", .richText "rich_text"
     [{ Type_ := "text", Text := { Content := "A" }, PlainText := "A" }])],
   hashRecord "c2" [("Title", .title "title" [])],
   hashRecord "c3" [("hash", .richText "rich_text"
     [{ Type_ := "text", Text := { Content := "B" }, PlainText := "B" }])],
   hashRecord "c4" [("hash", .checkbox true)],
   hashRecord "c5" [("hash", .richText "rich_text"
     [{ Type_ := "text", Text := { Content := "A" }, PlainText := "A" }])]]

/-- The item `itemA` with another title of the same length. -/
def itemA2 : RssItem := { itemA with title := "Past" }

/-- November 3, 2025, 00:00 UTC. -/
def t2025 : Time := ⟨1762128000, 0, "UTC", 0, none⟩

/-- The item `itemAEast` with its timestamp in a zone of the same offset whose
abbreviation is "+0800". -/
def itemAEastNamed : RssItem :=
  { itemA with published := ⟨1136214245, 0, "+0800", 28800, none⟩ }

/-- An item published one second after the epoch, in a zone without offset. -/
def itemEpoch1 : RssItem := { itemB with published := ⟨1, 0, "", 0, none⟩ }

/-- An item published at the epoch, in a zone one second east of UTC. -/
def itemEpoch0 : RssItem := { itemB with published := ⟨0, 0, "", 1, none⟩ }

/-- The item `itemB` with a title of `n` letters. -/
def paddedItem (n : Nat) : RssItem :=
  { itemB with title := String.mk (List.replicate n 'a') }

/-- The item `itemAEast` with its timestamp in a zone of the same offset whose
abbreviation is "CST". -/
def itemAEastCST : RssItem :=
  { itemA with published := ⟨1136214245, 0, "CST", 28800, none⟩ }

/-- The item `itemA` with a timestamp that carries a monotonic clock reading. -/
def itemAMono : RssItem :=
  { itemA with published := ⟨1136214245, 0, "UTC", 0, some 1000⟩ }

set_option maxRecDepth 4000

/-! ## Lemmas on the index and on `AddRssItem` -/

theorem lookup_isSome_iff (m : HashIndex) (k : String) :
    (m.lookup k).isSome = true ↔ k ∈ m.keys := by
  induction m with
  | nil => simp [HashIndex.keys]
  | cons e rest ih =>
    obtain ⟨a, b⟩ := e
    by_cases h : k = a
    · subst h
      simp [HashIndex.keys, List.lookup]
    · have h2 : (k == a) = false := by simpa using h
      simp only [List.lookup, h2]
      rw [ih]
      simp [HashIndex.keys, h]

theorem stringsJoin_three (a b c : String) : stringsJoin [a, b, c] "" = a ++ b ++ c := by
  simp [stringsJoin, String.intercalate, String.intercalate.go]

/-- The two ways `AddRssItem` can go. -/
theorem AddRssItem_cases (lib : Lib) (dao : NotionDao) (item : RssItem) (tr : Trace) :
    (fingerprint item ∈ dao.globalHash.keys ∧ AddRssItem lib dao item tr = (tr, none)) ∨
    (fingerprint item ∉ dao.globalHash.keys ∧ ∃ req, req.hash = some (fingerprint item) ∧
      AddRssItem lib dao item tr = (tr ++ [Call.pageCreate req], dao.client.pageCreate tr req)) := by
  by_cases h : fingerprint item ∈ dao.globalHash.keys
  · left
    refine ⟨h, ?_⟩
    have h2 := (lookup_isSome_iff _ _).2 h
    simp only [fingerprint, hashInput] at h2
    simp only [AddRssItem, stringsJoin_three, h2, if_true]
  · right
    refine ⟨h, ?_⟩
    have h2 : ¬ ((dao.globalHash.lookup (fingerprint item)).isSome = true) :=
      fun h3 => h ((lookup_isSome_iff _ _).1 h3)
    simp only [fingerprint, hashInput] at h2
    simp only [AddRssItem, stringsJoin_three, h2, if_false]
    refine ⟨_, ?_, rfl⟩
    simp only [fingerprint, hashInput]
    rfl

theorem createCallsFor_append (x : String) (tr tr2 : Trace) :
    createCallsFor x (tr ++ tr2) = createCallsFor x tr + createCallsFor x tr2 := by
  simp [createCallsFor, List.countP_append]

theorem createCallsFor_single (x : String) (req : PageCreateRequest) (f : String)
    (h : req.hash = some f) :
    createCallsFor x [Call.pageCreate req] = if f = x then 1 else 0 := by
  by_cases hx : f = x
  · simp [createCallsFor, h, hx]
  · simp [createCallsFor, h, hx]

/-- The loop of `AddNewContent` is `runItems` with a count of the errors. -/
theorem AddNewContent_loop_eq (lib : Lib) (dao : NotionDao) (items : List RssItem) :
    ∀ (tr : Trace) (n : Nat), AddNewContent.loop lib dao items tr n =
      ((runItems lib dao items tr).1,
        n + (runItems lib dao items tr).2.countP (fun e => e != none)) := by
  induction items with
  | nil => intro tr n; simp [AddNewContent.loop, runItems]
  | cons item rest ih =>
    intro tr n
    simp only [AddNewContent.loop, runItems]
    rw [ih]
    by_cases h : (AddRssItem lib dao item tr).2 = none
    · simp [h]
    · simp [h, List.countP_cons]
      omega

theorem runItems_length (lib : Lib) (dao : NotionDao) (items : List RssItem) :
    ∀ tr : Trace, (runItems lib dao items tr).2.length = items.length := by
  induction items with
  | nil => intro tr; simp [runItems]
  | cons item rest ih => intro tr; simp [runItems, ih]

/-- Create calls that `runItems` adds to the trace for the fingerprint `x`. -/
theorem runItems_createCalls (lib : Lib) (dao : NotionDao) (x : String) (items : List RssItem) :
    ∀ tr : Trace, createCallsFor x (runItems lib dao items tr).1 =
      createCallsFor x tr +
        (if x ∈ dao.globalHash.keys then 0 else items.countP (fun i => fingerprint i == x)) := by
  induction items with
  | nil => intro tr; simp [runItems]
  | cons item rest ih =>
    intro tr
    simp only [runItems]
    rw [ih]
    rcases AddRssItem_cases lib dao item tr with ⟨hin, heq⟩ | ⟨hnot, req, hreq, heq⟩
    · rw [heq]
      by_cases hx : x ∈ dao.globalHash.keys
      · simp [hx]
      · have hne : fingerprint item ≠ x := fun h => hx (h ▸ hin)
        simp [hx, List.countP_cons, hne]
    · rw [heq]
      simp only [createCallsFor_append, createCallsFor_single x req _ hreq]
      by_cases hx : x ∈ dao.globalHash.keys
      · have hne : fingerprint item ≠ x := fun h => hnot (h ▸ hx)
        simp [hx, hne]
      · by_cases hf : fingerprint item = x
        · simp [hx, hf, List.countP_cons]
          omega
        · simp [hx, hf, List.countP_cons]

theorem AddNewContent_eq (lib : Lib) (G : List FeedDatabaseItem → Time → List RssItem)
    (dao : NotionDao) (now : Time) (tr : Trace)
    (hp : (GetEnabledRssFeeds lib dao tr).2.panicked = false) :
    AddNewContent lib G dao now tr =
      let r := runItems lib dao (G (GetEnabledRssFeeds lib dao tr).2.sent (last24Hours now))
        (GetEnabledRssFeeds lib dao tr).1
      .returned (r.1,
        if r.2.countP (fun e => e != none) > 0 then
          some (Nat.repr (r.2.countP (fun e => e != none)) ++
            " Rss item/s failed to be created in the notion database. See errors above")
        else none) := by
  simp only [AddNewContent, hp, AddNewContent_loop_eq, Nat.zero_add]
  by_cases h : 0 < List.countP (fun e => e != none)
      (runItems lib dao (G (GetEnabledRssFeeds lib dao tr).2.sent (last24Hours now))
        (GetEnabledRssFeeds lib dao tr).1).2
  · simp [h]
  · simp [h]

theorem GetEnabledRssFeeds_trace (lib : Lib) (dao : NotionDao) (tr : Trace) :
    (GetEnabledRssFeeds lib dao tr).1 =
      tr ++ [Call.databaseQuery dao.feedDatabaseId enabledFeedsRequest] := by
  simp only [GetEnabledRssFeeds]
  split <;> rfl

/-! ## The claims on `AddRssItem` and `AddNewContent` -/

/-- C1. `AddRssItem` makes a create-page call iff the fingerprint of the item
(hex MD5 of title + link string + published string) is not a key of the index.
If it is a key, the result is nil and the trace is unchanged. If it is not,
exactly one create call is appended, its "hash" property carries the
fingerprint, and the result is the error of that call. With an index whose
keys are `f1` and `f2`, an item with fingerprint `f1` followed by an item with
fingerprint `f3` gives one create call, for `f3`. -/
theorem AddRssItem_creates_iff_new (lib : Lib) (dao : NotionDao) (item other : RssItem)
    (tr : Trace) :
    (fingerprint item ∈ dao.globalHash.keys → AddRssItem lib dao item tr = (tr, none)) ∧
    (fingerprint item ∉ dao.globalHash.keys → ∃ req, req.hash = some (fingerprint item) ∧
      AddRssItem lib dao item tr = (tr ++ [Call.pageCreate req], dao.client.pageCreate tr req)) ∧
    ((∃ req, (AddRssItem lib dao item tr).1 = tr ++ [Call.pageCreate req]) ↔
      fingerprint item ∉ dao.globalHash.keys) ∧
    (∀ f1 f2 f3 : String, (∀ k, k ∈ dao.globalHash.keys ↔ k = f1 ∨ k = f2) →
      fingerprint item = f1 → fingerprint other = f3 → f3 ≠ f1 → f3 ≠ f2 →
      ∃ req, req.hash = some f3 ∧
        (AddNewContent.loop lib dao [item, other] tr 0).1 = tr ++ [Call.pageCreate req]) := by
  refine ⟨?_, ?_, ?_, ?_⟩
  · intro h
    rcases AddRssItem_cases lib dao item tr with ⟨_, heq⟩ | ⟨hnot, _⟩
    · exact heq
    · exact absurd h hnot
  · intro h
    rcases AddRssItem_cases lib dao item tr with ⟨hin, _⟩ | ⟨_, hex⟩
    · exact absurd hin h
    · exact hex
  · constructor
    · rintro ⟨req, hreq⟩ hin
      rcases AddRssItem_cases lib dao item tr with ⟨_, heq⟩ | ⟨hnot, _⟩
      · rw [heq] at hreq
        have := congrArg List.length hreq
        simp at this
      · exact hnot hin
    · intro h
      rcases AddRssItem_cases lib dao item tr with ⟨hin, _⟩ | ⟨_, req, _, heq⟩
      · exact absurd hin h
      · exact ⟨req, by rw [heq]⟩
  · intro f1 f2 f3 hkeys h1 h3 h31 h32
    have hin : fingerprint item ∈ dao.globalHash.keys := (hkeys _).2 (Or.inl h1)
    have hout : fingerprint other ∉ dao.globalHash.keys := by
      intro h
      rcases (hkeys _).1 h with h' | h'
      · exact h31 (h3 ▸ h')
      · exact h32 (h3 ▸ h')
    rcases AddRssItem_cases lib dao item tr with ⟨_, heq⟩ | ⟨hnot, _⟩
    · rcases AddRssItem_cases lib dao other tr with ⟨hin2, _⟩ | ⟨_, req, hreq, heq2⟩
      · exact absurd hin2 hout
      · refine ⟨req, h3 ▸ hreq, ?_⟩
        simp [AddNewContent_loop_eq, runItems, heq, heq2]
    · exact absurd hin hnot

/-- C1, at the index of `indexedDao`: `itemA` is in it, `itemB` is not. -/
theorem AddRssItem_creates_iff_new_witness :
    AddRssItem exampleLib indexedDao itemA [] = ([], none) ∧
    (∃ req, req.hash = some (fingerprint itemB) ∧
      AddRssItem exampleLib indexedDao itemB [] =
        ([] ++ [Call.pageCreate req], indexedDao.client.pageCreate [] req)) ∧
    (∃ req, req.hash = some "843280352801446576484b05a2e018d5" ∧
      (AddNewContent.loop exampleLib indexedDao [itemA, itemB] [] 0).1 =
        [] ++ [Call.pageCreate req]) :=
  ⟨(AddRssItem_creates_iff_new exampleLib indexedDao itemA itemB []).1 (by decide),
   (AddRssItem_creates_iff_new exampleLib indexedDao itemB itemA []).2.1 (by decide),
   (AddRssItem_creates_iff_new exampleLib indexedDao itemA itemB []).2.2.2
     "0d3edd6148741b3d38f8425af931f4ac" "f2" "843280352801446576484b05a2e018d5"
     (by intro k; simp [indexedDao, HashIndex.keys]) (by decide) (by decide) (by decide)
     (by decide)⟩

/-- C2, refuted as stated: the index is empty, two enabled feeds each deliver
the item `itemA`, every store call succeeds, and `AddNewContent` makes two
create-page calls for the fingerprint of that item. -/
theorem AddNewContent_duplicate_created_twice :
    twoFeedsDao.globalHash = [] ∧
    contentStream exampleLib sameItemFromEveryFeed twoFeedsDao t2025 [] = [itemA, itemA] ∧
    fingerprint itemA = "0d3edd6148741b3d38f8425af931f4ac" ∧
    ∃ tr, AddNewContent exampleLib sameItemFromEveryFeed twoFeedsDao t2025 [] =
        .returned (tr, none) ∧
      createCallsFor "0d3edd6148741b3d38f8425af931f4ac" tr = 2 := by
  refine ⟨rfl, by decide, by decide, (runItems exampleLib twoFeedsDao [itemA, itemA]
    [Call.databaseQuery "feeds" enabledFeedsRequest]).1, by decide, by decide⟩

/-- C2 as amended. `AddNewContent` never changes the index: if the feed
enumeration does not panic, the number of create-page calls it makes for a
fingerprint `x` is zero when `x` is a key of the initial index, and otherwise
the number of items of the stream whose fingerprint is `x`, whatever the store
answers. -/
theorem AddNewContent_create_calls_per_fingerprint (lib : Lib)
    (GetRssContent : List FeedDatabaseItem → Time → List RssItem) (dao : NotionDao)
    (now : Time) (tr : Trace) (x : String)
    (hp : (GetEnabledRssFeeds lib dao tr).2.panicked = false) :
    ∃ tr2 err, AddNewContent lib GetRssContent dao now tr = .returned (tr2, err) ∧
      createCallsFor x tr2 = createCallsFor x tr +
        (if x ∈ dao.globalHash.keys then 0
         else (contentStream lib GetRssContent dao now tr).countP
           (fun i => fingerprint i == x)) := by
  rw [AddNewContent_eq lib GetRssContent dao now tr hp]
  refine ⟨_, _, rfl, ?_⟩
  rw [runItems_createCalls, GetEnabledRssFeeds_trace, createCallsFor_append]
  simp [createCallsFor, contentStream]

/-- C2 as amended, on two feeds that each deliver `itemA`. -/
theorem AddNewContent_create_calls_per_fingerprint_witness :
    ∃ tr2 err, AddNewContent exampleLib sameItemFromEveryFeed twoFeedsDao t2025 [] =
        .returned (tr2, err) ∧
      createCallsFor "0d3edd6148741b3d38f8425af931f4ac" tr2 =
        createCallsFor "0d3edd6148741b3d38f8425af931f4ac" [] +
        (if "0d3edd6148741b3d38f8425af931f4ac" ∈ twoFeedsDao.globalHash.keys then 0
         else (contentStream exampleLib sameItemFromEveryFeed twoFeedsDao t2025 []).countP
           (fun i => fingerprint i == "0d3edd6148741b3d38f8425af931f4ac")) :=
  AddNewContent_create_calls_per_fingerprint exampleLib sameItemFromEveryFeed twoFeedsDao
    t2025 [] "0d3edd6148741b3d38f8425af931f4ac" (by decide)

/-- C8. If the feed enumeration does not panic, `AddNewContent` calls
`AddRssItem` once on every item of the stream, in stream order, each call on
the trace left by the one before, whether or not earlier calls failed. It
returns nil iff no call returned an error; otherwise its error message starts
with the number of calls that returned an error. -/
theorem AddNewContent_attempts_every_item (lib : Lib)
    (GetRssContent : List FeedDatabaseItem → Time → List RssItem) (dao : NotionDao)
    (now : Time) (tr : Trace)
    (hp : (GetEnabledRssFeeds lib dao tr).2.panicked = false) :
    (runItems lib dao (contentStream lib GetRssContent dao now tr)
        (GetEnabledRssFeeds lib dao tr).1).2.length =
      (contentStream lib GetRssContent dao now tr).length ∧
    ∃ err, AddNewContent lib GetRssContent dao now tr =
        .returned ((runItems lib dao (contentStream lib GetRssContent dao now tr)
          (GetEnabledRssFeeds lib dao tr).1).1, err) ∧
      (err = none ↔ ∀ e ∈ (runItems lib dao (contentStream lib GetRssContent dao now tr)
          (GetEnabledRssFeeds lib dao tr).1).2, e = none) ∧
      (err ≠ none → err = some (Nat.repr
          ((runItems lib dao (contentStream lib GetRssContent dao now tr)
            (GetEnabledRssFeeds lib dao tr).1).2.countP (fun e => e != none)) ++
          " Rss item/s failed to be created in the notion database. See errors above")) := by
  refine ⟨runItems_length _ _ _ _, ?_⟩
  rw [AddNewContent_eq lib GetRssContent dao now tr hp]
  refine ⟨_, rfl, ?_, ?_⟩
  · simp only [contentStream]
    constructor
    · intro h e he
      by_contra hne
      have hpos : 0 < List.countP (fun e => e != none)
          (runItems lib dao (GetRssContent (GetEnabledRssFeeds lib dao tr).2.sent
            (last24Hours now)) (GetEnabledRssFeeds lib dao tr).1).2 :=
        List.countP_pos_iff.2 ⟨e, he, by simpa using hne⟩
      simp [hpos] at h
    · intro h
      have hz : List.countP (fun e => e != none)
          (runItems lib dao (GetRssContent (GetEnabledRssFeeds lib dao tr).2.sent
            (last24Hours now)) (GetEnabledRssFeeds lib dao tr).1).2 = 0 := by
        rw [List.countP_eq_zero]
        intro e he
        simp [h e he]
      simp [hz]
  · intro h
    simp only [contentStream] at h ⊢
    by_cases hpos : 0 < List.countP (fun e => e != none)
        (runItems lib dao (GetRssContent (GetEnabledRssFeeds lib dao tr).2.sent
          (last24Hours now)) (GetEnabledRssFeeds lib dao tr).1).2
    · simp [hpos]
    · simp [hpos] at h

/-- C8, on a stream of three items of which the second create call fails. -/
theorem AddNewContent_attempts_every_item_witness :
    (runItems exampleLib ⟨"feeds", "content", secondCreateFailsClient, []⟩
        (contentStream exampleLib (fun _ _ => [itemA, itemB, itemAEast])
          ⟨"feeds", "content", secondCreateFailsClient, []⟩ t2025 [])
        (GetEnabledRssFeeds exampleLib ⟨"feeds", "content", secondCreateFailsClient, []⟩
          []).1).2.length =
      (contentStream exampleLib (fun _ _ => [itemA, itemB, itemAEast])
        ⟨"feeds", "content", secondCreateFailsClient, []⟩ t2025 []).length ∧
    ∃ err, AddNewContent exampleLib (fun _ _ => [itemA, itemB, itemAEast])
        ⟨"feeds", "content", secondCreateFailsClient, []⟩ t2025 [] =
        .returned ((runItems exampleLib ⟨"feeds", "content", secondCreateFailsClient, []⟩
          (contentStream exampleLib (fun _ _ => [itemA, itemB, itemAEast])
            ⟨"feeds", "content", secondCreateFailsClient, []⟩ t2025 [])
          (GetEnabledRssFeeds exampleLib ⟨"feeds", "content", secondCreateFailsClient, []⟩
            []).1).1, err) ∧
      (err = none ↔ ∀ e ∈ (runItems exampleLib
          ⟨"feeds", "content", secondCreateFailsClient, []⟩
          (contentStream exampleLib (fun _ _ => [itemA, itemB, itemAEast])
            ⟨"feeds", "content", secondCreateFailsClient, []⟩ t2025 [])
          (GetEnabledRssFeeds exampleLib ⟨"feeds", "content", secondCreateFailsClient, []⟩
            []).1).2, e = none) ∧
      (err ≠ none → err = some (Nat.repr
          ((runItems exampleLib ⟨"feeds", "content", secondCreateFailsClient, []⟩
            (contentStream exampleLib (fun _ _ => [itemA, itemB, itemAEast])
              ⟨"feeds", "content", secondCreateFailsClient, []⟩ t2025 [])
            (GetEnabledRssFeeds exampleLib ⟨"feeds", "content", secondCreateFailsClient, []⟩
              []).1).2.countP (fun e => e != none)) ++
          " Rss item/s failed to be created in the notion database. See errors above")) :=
  AddNewContent_attempts_every_item exampleLib (fun _ _ => [itemA, itemB, itemAEast])
    ⟨"feeds", "content", secondCreateFailsClient, []⟩ t2025 [] (by decide)

/-! ## The claims on archival -/

theorem updateAnswer_succ (dao : NotionDao) (p : String) (rest : List String) (tr : Trace)
    (i : Nat) :
    updateAnswer dao (p :: rest) tr (i + 1) = updateAnswer dao rest (tr ++ [archiveCall p]) i := by
  simp [updateAnswer, List.getD]

/-- The loop of `ArchivePages`: one update call for each id, and the number of
failed calls added to the counter. -/
theorem ArchivePages_loop_eq (dao : NotionDao) (pageIds : List String) :
    ∀ (tr : Trace) (n : Nat), ArchivePages.loop dao pageIds tr n =
      (tr ++ pageIds.map archiveCall, n + failedUpdates dao pageIds tr) := by
  induction pageIds with
  | nil => intro tr n; simp [ArchivePages.loop, failedUpdates]
  | cons p rest ih =>
    intro tr n
    simp only [ArchivePages.loop]
    rw [ih]
    have hcount : failedUpdates dao (p :: rest) tr =
        (if updateAnswer dao (p :: rest) tr 0 != none then 1 else 0) +
          failedUpdates dao rest (tr ++ [archiveCall p]) := by
      simp only [failedUpdates, List.length_cons, List.range_succ_eq_map, List.countP_cons,
        List.countP_map]
      rw [Nat.add_comm]
      congr 1
      apply congrArg (fun f => List.countP f (List.range rest.length))
      funext i
      simp [Function.comp, updateAnswer_succ]
    have h0 : updateAnswer dao (p :: rest) tr 0 =
        dao.client.pageUpdate tr p { Archived := true, Properties := [] } := by
      simp [updateAnswer]
    rw [hcount, h0]
    by_cases h : dao.client.pageUpdate tr p { Archived := true, Properties := [] } = none
    · simp [h, archiveCall]
    · simp [h, archiveCall]
      omega

theorem failedUpdates_eq_zero (dao : NotionDao) (pageIds : List String) (tr : Trace) :
    failedUpdates dao pageIds tr = 0 ↔
      ∀ i, i < pageIds.length → updateAnswer dao pageIds tr i = none := by
  simp [failedUpdates, List.countP_eq_zero]

/-- C6. `ArchivePages` makes the update call with `Archived: true` and no
property change once on every id of the list, in list order, whether or not
earlier calls failed. It returns nil iff no call failed, and otherwise the
error "failed to archive N pages" where N is the number of ids whose call
failed. -/
theorem ArchivePages_attempts_every_id (dao : NotionDao) (pageIds : List String) (tr : Trace) :
    (ArchivePages dao pageIds tr).1 =
      tr ++ pageIds.map (fun p => Call.pageUpdate p { Archived := true, Properties := [] }) ∧
    ((ArchivePages dao pageIds tr).2 = none ↔
      ∀ i, i < pageIds.length →
        dao.client.pageUpdate
          (tr ++ (pageIds.take i).map
            (fun p => Call.pageUpdate p { Archived := true, Properties := [] }))
          (pageIds.getD i "") { Archived := true, Properties := [] } = none) ∧
    ((ArchivePages dao pageIds tr).2 ≠ none →
      (ArchivePages dao pageIds tr).2 =
        some ("failed to archive " ++ Nat.repr (failedUpdates dao pageIds tr) ++ " pages")) ∧
    failedUpdates dao pageIds tr =
      ((List.range pageIds.length).filter
        (fun i => dao.client.pageUpdate
          (tr ++ (pageIds.take i).map
            (fun p => Call.pageUpdate p { Archived := true, Properties := [] }))
          (pageIds.getD i "") { Archived := true, Properties := [] } != none)).length := by
  show (ArchivePages dao pageIds tr).1 = tr ++ pageIds.map archiveCall ∧
    ((ArchivePages dao pageIds tr).2 = none ↔
      ∀ i, i < pageIds.length → updateAnswer dao pageIds tr i = none) ∧
    ((ArchivePages dao pageIds tr).2 ≠ none →
      (ArchivePages dao pageIds tr).2 =
        some ("failed to archive " ++ Nat.repr (failedUpdates dao pageIds tr) ++ " pages")) ∧
    failedUpdates dao pageIds tr =
      ((List.range pageIds.length).filter
        (fun i => updateAnswer dao pageIds tr i != none)).length
  have hz := failedUpdates_eq_zero dao pageIds tr
  have hlen : failedUpdates dao pageIds tr =
      ((List.range pageIds.length).filter
        (fun i => updateAnswer dao pageIds tr i != none)).length := by
    simp [failedUpdates, List.countP_eq_length_filter]
  by_cases h : 0 < failedUpdates dao pageIds tr
  · have hA : ArchivePages dao pageIds tr = (tr ++ pageIds.map archiveCall,
        some ("failed to archive " ++ Nat.repr (failedUpdates dao pageIds tr) ++ " pages")) := by
      simp only [ArchivePages, ArchivePages_loop_eq, Nat.zero_add]
      rw [if_pos h]
    have hne : failedUpdates dao pageIds tr ≠ 0 := by omega
    rw [hA]
    refine ⟨rfl, ?_, fun _ => rfl, hlen⟩
    constructor
    · intro h2
      exact absurd h2 (by simp)
    · intro h2
      exact absurd (hz.2 h2) hne
  · have hA : ArchivePages dao pageIds tr = (tr ++ pageIds.map archiveCall, none) := by
      simp only [ArchivePages, ArchivePages_loop_eq, Nat.zero_add]
      rw [if_neg h]
    have he : failedUpdates dao pageIds tr = 0 := by omega
    rw [hA]
    exact ⟨rfl, ⟨fun _ => hz.1 he, fun _ => rfl⟩, fun h2 => absurd rfl h2, hlen⟩

/-- C6, on the ids 1, 2, 3 with a client that fails on id 2 only: the three
archiving calls are made and the error counts one failure. -/
theorem ArchivePages_attempts_every_id_witness :
    (ArchivePages ⟨"feeds", "content", failOnTwoClient, []⟩ ["1", "2", "3"] []).1 =
      [Call.pageUpdate "1" { Archived := true, Properties := [] },
       Call.pageUpdate "2" { Archived := true, Properties := [] },
       Call.pageUpdate "3" { Archived := true, Properties := [] }] ∧
    (ArchivePages ⟨"feeds", "content", failOnTwoClient, []⟩ ["1", "2", "3"] []).2 =
      some ("failed to archive " ++
        Nat.repr (failedUpdates ⟨"feeds", "content", failOnTwoClient, []⟩ ["1", "2", "3"] []) ++
        " pages") ∧
    failedUpdates ⟨"feeds", "content", failOnTwoClient, []⟩ ["1", "2", "3"] [] = 1 :=
  ⟨(ArchivePages_attempts_every_id ⟨"feeds", "content", failOnTwoClient, []⟩
      ["1", "2", "3"] []).1,
   (ArchivePages_attempts_every_id ⟨"feeds", "content", failOnTwoClient, []⟩
      ["1", "2", "3"] []).2.2.1 (by decide),
   by decide⟩

/-- The scenario of C6 evaluated: ids 1, 2, 3 where the call on id 2 fails. All
three archiving calls are made, the calls on ids 1 and 3 succeed, and the error
counts one failure. -/
theorem ArchivePages_scenario :
    ArchivePages ⟨"feeds", "content", failOnTwoClient, []⟩ ["1", "2", "3"] [] =
      ([Call.pageUpdate "1" { Archived := true, Properties := [] },
        Call.pageUpdate "2" { Archived := true, Properties := [] },
        Call.pageUpdate "3" { Archived := true, Properties := [] }],
       some "failed to archive 1 pages") ∧
    failOnTwoClient.pageUpdate [] "1" { Archived := true, Properties := [] } = none ∧
    failOnTwoClient.pageUpdate [Call.pageUpdate "1" { Archived := true, Properties := [] },
      Call.pageUpdate "2" { Archived := true, Properties := [] }] "3"
      { Archived := true, Properties := [] } = none := by
  decide

theorem Time.instantBefore_irrefl (t : Time) : t.instantBefore t = false := by
  simp [Time.instantBefore]

theorem Time.instantBefore_of_same_instant (t u : Time) (hs : t.sec = u.sec) (hn : t.nsec = u.nsec) :
    t.instantBefore u = false := by
  simp [Time.instantBefore, hs, hn]

/-- Moving a time by a whole number of seconds. -/
theorem Time.Add_whole_seconds (t : Time) (k : Int) (h : t.nsec < 1000000000) :
    (t.Add (k * 1000000000)).sec = t.sec + k ∧ (t.Add (k * 1000000000)).nsec = t.nsec := by
  have h1 : (k * 1000000000).tdiv 1000000000 = k := Int.mul_tdiv_cancel k (by decide)
  have h2 : (k * 1000000000).tmod 1000000000 = 0 := Int.mul_tmod_left k 1000000000
  have h3 : ¬ ((t.nsec : Int) ≥ 1000000000) := by omega
  have h4 : ¬ ((t.nsec : Int) < 0) := by omega
  simp only [Time.Add, h1, h2, Int.add_zero, h3, h4, if_false]
  simp

/-- The request of `GetOldUnstarredRSSItems` selects the records that are
expired at the cutoff as the store reads it. -/
theorem oldUnstarredRequest_holds (cutoff : Time) (p : Page) :
    (oldUnstarredRequest cutoff).holds p = expired cutoff.onWire p := by
  simp only [oldUnstarredRequest, DatabaseQueryRequest.holds, Filter.holds, List.all_cons,
    List.all_nil, PropertyFilter.holds, expired, Page.created, Page.starred,
    DateFilterCondition.holds, CheckboxFilterCondition.holds]
  cases hC : List.lookup "Created" p.Properties with
  | none => simp
  | some v =>
    cases hS : List.lookup "Starred" p.Properties with
    | none => simp
    | some w =>
      cases v <;> cases w <;> simp
      all_goals rename_i a b
      all_goals cases a <;> simp

/-- A time before the cutoff as sent is before the cutoff itself, when the
offset of the cutoff is a whole number of minutes. -/
theorem Time.instantBefore_of_onWire (t cutoff : Time) (ho : cutoff.zoneOffset.tmod 60 = 0)
    (h : t.instantBefore cutoff.onWire = true) :
    t.instantBefore cutoff = true ∧ t.sameInstant cutoff = false := by
  simp only [Time.instantBefore, Time.onWire, ho, Int.add_zero, Bool.or_eq_true,
    decide_eq_true_eq, Bool.and_eq_true, Nat.not_lt_zero, and_false, or_false] at h
  constructor
  · simp [Time.instantBefore, h]
  · have hne : t.sec ≠ cutoff.sec := by omega
    simp [Time.sameInstant, hne]

/-- When the query fails, `GetOldUnstarredRSSItemIds` returns no id. -/
theorem GetOldUnstarredRSSItemIds_query_fails (dao : NotionDao) (cutoff : Time) (tr : Trace)
    (e : String)
    (hq : dao.client.databaseQuery tr dao.contentDatabaseId (oldUnstarredRequest cutoff) =
      .error e) :
    (GetOldUnstarredRSSItemIds dao cutoff tr).2 = [] := by
  simp [GetOldUnstarredRSSItemIds, GetOldUnstarredRSSItems, hq]

/-- C7, refuted as stated, twice. First, the store holds a record created
before the cutoff and not starred, the query fails, and
`GetOldUnstarredRSSItemIds` returns no id. Second, the cutoff 15:04:05.5 is
sent as the text 2006-01-02T15:04:05Z: of two unstarred records created
strictly before the cutoff, the one created at 15:04:05.2 is not returned. -/
theorem GetOldUnstarredRSSItemIds_misses_expired :
    (exampleStore.filter (expired t2006utc)).map (fun p => p.ID) = ["p1"] ∧
    (GetOldUnstarredRSSItemIds ⟨"feeds", "content", downClient, []⟩ t2006utc []).2 = [] ∧
    cutoffHalf.RFC3339 = "2006-01-02T15:04:05Z" ∧
    (secondStore.filter (expired cutoffHalf)).map (fun p => p.ID) = ["q0", "q1"] ∧
    (GetOldUnstarredRSSItemIds ⟨"feeds", "content", storeClient secondStore, []⟩
      cutoffHalf []).2 = ["q0"] := by
  decide

/-- C7 as amended. `GetOldUnstarredRSSItemIds` makes one query on the content
database, with the filter "Created" before the cutoff and "Starred" with
`Equals: false, DoesNotEqual: true`, and returns the ids of the records of the
response, one per record in the order of the response, or no id when the query
fails. The client sends the cutoff as text cut to the whole second. When the
response holds the records of the store that the request selects, the ids are
those of the records created strictly before the cutoff as sent whose
"Starred" flag is false; for a cutoff whose offset is a whole number of
minutes such a record is created strictly before the cutoff itself, so a record
created at the cutoff is not selected, and a starred record never is.
`ArchiveOldUnstarredContent` calls it with the cutoff 30 days (2,592,000
seconds) before `now`. -/
theorem GetOldUnstarredRSSItemIds_selects_expired (dao : NotionDao) (cutoff now : Time)
    (tr : Trace) (hn : now.nsec < 1000000000) :
    (GetOldUnstarredRSSItemIds dao cutoff tr).1 =
      tr ++ [Call.databaseQuery dao.contentDatabaseId
        { Filter := some (Filter.andCompound [
            { Property := "Created", Date := some { Before := some cutoff } },
            { Property := "Starred",
              Checkbox := some { Equals := false, DoesNotEqual := true } }]) }] ∧
    (∀ resp : DatabaseQueryResponse,
      dao.client.databaseQuery tr dao.contentDatabaseId (oldUnstarredRequest cutoff) =
        .ok resp →
      (GetOldUnstarredRSSItemIds dao cutoff tr).2 = resp.Results.map (fun p => p.ID)) ∧
    (∀ e : String,
      dao.client.databaseQuery tr dao.contentDatabaseId (oldUnstarredRequest cutoff) =
        .error e →
      (GetOldUnstarredRSSItemIds dao cutoff tr).2 = []) ∧
    (∀ store : List Page,
      dao.client.databaseQuery tr dao.contentDatabaseId (oldUnstarredRequest cutoff) =
        .ok { Results := store.filter (oldUnstarredRequest cutoff).holds, HasMore := false } →
      (GetOldUnstarredRSSItemIds dao cutoff tr).2 =
        (store.filter (expired cutoff.onWire)).map (fun p => p.ID) ∧
      ∀ p ∈ (GetOldUnstarredRSSItems dao cutoff tr).2,
        p ∈ store ∧ p.starred = some false ∧
          ∃ t, p.created = some t ∧ t.instantBefore cutoff.onWire = true ∧
            (cutoff.zoneOffset.tmod 60 = 0 →
              t.instantBefore cutoff = true ∧ t.sameInstant cutoff = false)) ∧
    (∃ c : Time, c.sec = now.sec - 2592000 ∧ c.nsec = now.nsec ∧
      ArchiveOldUnstarredContent dao now tr =
        ArchivePages dao (GetOldUnstarredRSSItemIds dao c tr).2
          (GetOldUnstarredRSSItemIds dao c tr).1) := by
  refine ⟨?_, ?_, fun e hq => GetOldUnstarredRSSItemIds_query_fails dao cutoff tr e hq, ?_, ?_⟩
  · simp only [GetOldUnstarredRSSItemIds, GetOldUnstarredRSSItems]
    split <;> rfl
  · intro resp hq
    simp [GetOldUnstarredRSSItemIds, GetOldUnstarredRSSItems, hq]
  · intro store hq
    have hf : store.filter (oldUnstarredRequest cutoff).holds =
        store.filter (expired cutoff.onWire) := by
      congr 1
      funext p
      exact oldUnstarredRequest_holds cutoff p
    have hpages : (GetOldUnstarredRSSItems dao cutoff tr).2 =
        store.filter (expired cutoff.onWire) := by
      simp [GetOldUnstarredRSSItems, hq, hf]
    refine ⟨?_, ?_⟩
    · simp [GetOldUnstarredRSSItemIds, hpages]
    · intro p hp
      rw [hpages, List.mem_filter] at hp
      obtain ⟨hmem, hexp⟩ := hp
      simp only [expired, Bool.and_eq_true, beq_iff_eq] at hexp
      obtain ⟨hcr, hst⟩ := hexp
      refine ⟨hmem, hst, ?_⟩
      cases hc : p.created with
      | none => simp [hc] at hcr
      | some t =>
        simp only [hc] at hcr
        exact ⟨t, rfl, hcr, fun ho => Time.instantBefore_of_onWire t cutoff ho hcr⟩
  · have hd : wrapInt64 (-30 * Hour * 24) = (-2592000) * 1000000000 := by decide
    refine ⟨now.Add (wrapInt64 (-30 * Hour * 24)), ?_, ?_, rfl⟩
    · rw [hd, (Time.Add_whole_seconds now (-2592000) hn).1]
      omega
    · rw [hd, (Time.Add_whole_seconds now (-2592000) hn).2]

/-- C7 as amended, on `secondStore` with the cutoff `cutoffHalf`, and on a
client that is down. -/
theorem GetOldUnstarredRSSItemIds_selects_expired_witness :
    (GetOldUnstarredRSSItemIds ⟨"feeds", "content", storeClient secondStore, []⟩
        cutoffHalf []).2 =
      (secondStore.filter (expired cutoffHalf.onWire)).map (fun p => p.ID) ∧
    (GetOldUnstarredRSSItemIds ⟨"feeds", "content", downClient, []⟩ t2006utc []).2 = [] :=
  ⟨((GetOldUnstarredRSSItemIds_selects_expired
      ⟨"feeds", "content", storeClient secondStore, []⟩ cutoffHalf t2025 []
      (by decide)).2.2.2.1 secondStore rfl).1,
   (GetOldUnstarredRSSItemIds_selects_expired ⟨"feeds", "content", downClient, []⟩
      t2006utc t2025 [] (by decide)).2.2.1 "service unavailable" rfl⟩

/-- The scenario of C7 evaluated on `exampleStore`, whose times are whole
seconds: only the old unstarred record is selected; the record created at
the cutoff and the starred record are not. -/
theorem GetOldUnstarredRSSItemIds_scenario :
    (GetOldUnstarredRSSItemIds ⟨"feeds", "content", storeClient exampleStore, []⟩ t2006utc []).2 =
      ["p1"] := by
  decide

/-! ## The claim on the feed registry -/

/-- On a record whose properties have the expected types,
`GetRssFeedFromDatabaseObject` returns. -/
theorem GetRssFeedFromDatabaseObject_returns (lib : Lib) (p : Page)
    (h : feedSchemaOk p = true) :
    ∃ r, GetRssFeedFromDatabaseObject lib p = .returned r := by
  simp only [feedSchemaOk, Bool.and_eq_true] at h
  obtain ⟨hl, ht⟩ := h
  cases hL : List.lookup "Link" p.Properties with
  | none =>
    cases hT : List.lookup "Title" p.Properties <;>
      simp [GetRssFeedFromDatabaseObject, hL, hT]
  | some v =>
    cases hT : List.lookup "Title" p.Properties with
    | none => simp [GetRssFeedFromDatabaseObject, hL, hT]
    | some w =>
      rw [hL] at hl
      rw [hT] at ht
      cases v <;> simp at hl
      cases w <;> simp at ht
      rename_i ty u ty2 names
      simp only [GetRssFeedFromDatabaseObject, hL, hT]
      cases lib.urlParse u with
      | error e => exact ⟨_, rfl⟩
      | ok rssUrl =>
        cases names with
        | nil => exact ⟨_, rfl⟩
        | cons first rest => exact ⟨_, rfl⟩

/-- The loop of `GetEnabledRssFeeds` on records with the expected property types. -/
theorem GetEnabledRssFeeds_loop_eq (lib : Lib) (records : List Page)
    (h : ∀ r ∈ records, feedSchemaOk r = true) :
    GetEnabledRssFeeds.loop lib records = ⟨records.filterMap (feedOf lib), false⟩ := by
  induction records with
  | nil => rfl
  | cons r rest ih =>
    have hr := h r (List.mem_cons_self _ _)
    have hrest := ih (fun x hx => h x (List.mem_cons_of_mem _ hx))
    obtain ⟨⟨feed, err⟩, hret⟩ := GetRssFeedFromDatabaseObject_returns lib r hr
    cases err with
    | none => simp [GetEnabledRssFeeds.loop, hret, hrest, List.filterMap_cons, feedOf]
    | some e => simp [GetEnabledRssFeeds.loop, hret, hrest, List.filterMap_cons, feedOf]

/-- C9, refuted as stated: a record whose "Link" property is not a URL property
makes `GetRssFeedFromDatabaseObject` panic; the enumeration ends there and the
well-formed record after it is never emitted. -/
theorem GetEnabledRssFeeds_panics_on_text_link :
    GetRssFeedFromDatabaseObject exampleLib textLinkFeed = .panicked ∧
    feedOf exampleLib goodFeed ≠ none ∧
    (GetEnabledRssFeeds exampleLib ⟨"feeds", "content", recordsClient [textLinkFeed, goodFeed], []⟩
      []).2 = ⟨[], true⟩ := by
  decide

/-- C9 as amended. For every list of registry records returned by the query in
which the "Link" property of a record, when present, is a URL property and the
"Title" property, when present, is a title property, `GetEnabledRssFeeds`
emits, in record order, exactly the descriptors of the records on which
`GetRssFeedFromDatabaseObject` succeeds, and does not panic. A record with no
"Link" property, no "Title" property or an empty title makes
`GetRssFeedFromDatabaseObject` return an error and is skipped. -/
theorem GetEnabledRssFeeds_emits_successes (lib : Lib) (dao : NotionDao) (tr : Trace)
    (resp : DatabaseQueryResponse)
    (hq : dao.client.databaseQuery tr dao.feedDatabaseId enabledFeedsRequest = .ok resp)
    (hs : ∀ r ∈ resp.Results, feedSchemaOk r = true) :
    (GetEnabledRssFeeds lib dao tr).2 = ⟨resp.Results.filterMap (feedOf lib), false⟩ ∧
    ∀ r ∈ resp.Results,
      (r.Properties.lookup "Link" = none ∨ r.Properties.lookup "Title" = none ∨
        ∃ ty, r.Properties.lookup "Title" = some (.title ty [])) →
      (∃ e, GetRssFeedFromDatabaseObject lib r =
        .returned (⟨none, zeroTime, zeroTime, ""⟩, some e)) ∧ feedOf lib r = none := by
  refine ⟨?_, ?_⟩
  · simp [GetEnabledRssFeeds, hq, GetEnabledRssFeeds_loop_eq lib resp.Results hs]
  · intro r hr hmiss
    have hok := hs r hr
    simp only [feedSchemaOk, Bool.and_eq_true] at hok
    obtain ⟨hl, ht⟩ := hok
    have key : ∃ e, GetRssFeedFromDatabaseObject lib r =
        .returned (⟨none, zeroTime, zeroTime, ""⟩, some e) := by
      cases hL : List.lookup "Link" r.Properties with
      | none =>
        cases hT : List.lookup "Title" r.Properties <;>
          simp [GetRssFeedFromDatabaseObject, hL, hT]
      | some v =>
        cases hT : List.lookup "Title" r.Properties with
        | none => simp [GetRssFeedFromDatabaseObject, hL, hT]
        | some w =>
          rw [hL] at hl
          rw [hT] at ht
          cases v <;> simp at hl
          cases w <;> simp at ht
          rename_i ty u ty2 names
          rcases hmiss with h1 | h1 | ⟨ty3, h1⟩
          · rw [hL] at h1
            exact absurd h1 (by simp)
          · rw [hT] at h1
            exact absurd h1 (by simp)
          · rw [hT] at h1
            simp only [Option.some.injEq, Property.title.injEq] at h1
            obtain ⟨_, hnames⟩ := h1
            subst hnames
            simp only [GetRssFeedFromDatabaseObject, hL, hT]
            cases lib.urlParse u with
            | error e => exact ⟨_, rfl⟩
            | ok rssUrl => exact ⟨_, rfl⟩
    refine ⟨key, ?_⟩
    obtain ⟨e, he⟩ := key
    simp [feedOf, he]

/-- C9 as amended, on a response of three records: one without link, one
well-formed, one with an empty title. -/
theorem GetEnabledRssFeeds_emits_successes_witness :
    (GetEnabledRssFeeds exampleLib
      ⟨"feeds", "content", recordsClient [noLinkFeed, goodFeed, emptyTitleFeed], []⟩ []).2 =
      ⟨[noLinkFeed, goodFeed, emptyTitleFeed].filterMap (feedOf exampleLib), false⟩ :=
  (GetEnabledRssFeeds_emits_successes exampleLib
    ⟨"feeds", "content", recordsClient [noLinkFeed, goodFeed, emptyTitleFeed], []⟩ []
    { Results := [noLinkFeed, goodFeed, emptyTitleFeed] } rfl (by decide)).1

/-- The scenario of C9 evaluated: of a record without link, a well-formed record
and a record with an empty title, only the well-formed one is emitted. -/
theorem GetEnabledRssFeeds_scenario :
    (GetEnabledRssFeeds exampleLib
      ⟨"feeds", "content", recordsClient [noLinkFeed, goodFeed, emptyTitleFeed], []⟩ []).2 =
      ⟨[⟨some ⟨"https://example.com/rss"⟩, t2006utc, t2006utc, "Example"⟩], false⟩ := by
  decide

/-! ## The claim on the dedup index -/

theorem HashIndex.mem_keys_set (m : HashIndex) (k v s : String) :
    s ∈ (HashIndex.set m k v).keys ↔ s = k ∨ s ∈ m.keys := by
  simp only [HashIndex.set, HashIndex.keys, List.map_cons, List.mem_cons, List.mem_map,
    List.mem_filter, bne_iff_ne, ne_eq, Prod.exists, exists_and_right, exists_eq_right]
  constructor
  · rintro (h | ⟨hb, _⟩)
    · exact Or.inl h
    · exact Or.inr hb
  · rintro (h | hb)
    · exact Or.inl h
    · by_cases hs : s = k
      · exact Or.inl hs
      · exact Or.inr ⟨hb, hs⟩

theorem HashIndex.lookup_filter_ne (m : HashIndex) (k s : String) (h : s ≠ k) :
    List.lookup s (m.filter fun e => e.1 != k) = List.lookup s m := by
  induction m with
  | nil => rfl
  | cons e rest ih =>
    obtain ⟨a, b⟩ := e
    by_cases ha : a = k
    · subst ha
      have h2 : (s == a) = false := by simpa using h
      simp [List.filter, List.lookup, h2, ih]
    · have h3 : (a != k) = true := by simpa using ha
      simp only [List.filter, h3, List.lookup]
      rw [ih]

theorem HashIndex.lookup_set (m : HashIndex) (k v s : String) :
    List.lookup s (HashIndex.set m k v) = if s = k then some v else List.lookup s m := by
  by_cases h : s = k
  · subst h
    simp [HashIndex.set, List.lookup]
  · have h2 : (s == k) = false := by simpa using h
    simp only [HashIndex.set, List.lookup, h2, h, if_false]
    exact HashIndex.lookup_filter_ne m k s h

/-- The inner loop of `GetHashMap` over the text segments of one "hash" property. -/
theorem GetHashMap_segments (segs : List RichText) :
    ∀ m : HashIndex,
      (∀ s, s ∈ (segs.foldl (fun m text =>
          HashIndex.set m text.Text.Content text.Text.Content) m).keys ↔
        s ∈ m.keys ∨ ∃ text ∈ segs, text.Text.Content = s) ∧
      ((∀ s ∈ m.keys, List.lookup s m = some s) →
        ∀ s ∈ (segs.foldl (fun m text =>
          HashIndex.set m text.Text.Content text.Text.Content) m).keys,
          List.lookup s (segs.foldl (fun m text =>
            HashIndex.set m text.Text.Content text.Text.Content) m) = some s) := by
  induction segs with
  | nil => intro m; simp
  | cons t rest ih =>
    intro m
    obtain ⟨ih1, ih2⟩ := ih (HashIndex.set m t.Text.Content t.Text.Content)
    refine ⟨?_, ?_⟩
    · intro s
      simp only [List.foldl_cons, ih1, HashIndex.mem_keys_set, List.mem_cons, exists_eq_or_imp]
      constructor
      · rintro ((h | h) | h)
        · exact Or.inr (Or.inl h.symm)
        · exact Or.inl h
        · exact Or.inr (Or.inr h)
      · rintro (h | h | h)
        · exact Or.inl (Or.inr h)
        · exact Or.inl (Or.inl h.symm)
        · exact Or.inr h
    · intro hinv
      apply ih2
      intro s hs
      rw [HashIndex.lookup_set]
      by_cases h : s = t.Text.Content
      · simp [h]
      · simp only [h, if_false]
        rcases (HashIndex.mem_keys_set _ _ _ _).1 hs with h2 | h2
        · exact absurd h2 h
        · exact hinv s h2

/-- The outer loop of `GetHashMap` over the records of the response. -/
theorem GetHashMap_records (records : List Page) :
    ∀ m : HashIndex,
      (∀ s, s ∈ (records.foldl (fun m result =>
          match result.Properties.lookup "hash" with
          | some (Property.richText _ hashValue) =>
            hashValue.foldl (fun m text =>
              HashIndex.set m text.Text.Content text.Text.Content) m
          | _ => m) m).keys ↔
        s ∈ m.keys ∨ ∃ r ∈ records, ∃ ty segs,
          r.Properties.lookup "hash" = some (Property.richText ty segs) ∧
          ∃ text ∈ segs, text.Text.Content = s) ∧
      ((∀ s ∈ m.keys, List.lookup s m = some s) →
        ∀ s ∈ (records.foldl (fun m result =>
          match result.Properties.lookup "hash" with
          | some (Property.richText _ hashValue) =>
            hashValue.foldl (fun m text =>
              HashIndex.set m text.Text.Content text.Text.Content) m
          | _ => m) m).keys,
          List.lookup s (records.foldl (fun m result =>
            match result.Properties.lookup "hash" with
            | some (Property.richText _ hashValue) =>
              hashValue.foldl (fun m text =>
                HashIndex.set m text.Text.Content text.Text.Content) m
            | _ => m) m) = some s) := by
  induction records with
  | nil => intro m; simp
  | cons r rest ih =>
    intro m
    simp only [List.foldl_cons]
    cases hL : List.lookup "hash" r.Properties with
    | none =>
      obtain ⟨ih1, ih2⟩ := ih m
      refine ⟨?_, ?_⟩
      · intro s
        rw [ih1]
        simp [hL]
      · exact ih2
    | some v =>
      cases v with
      | richText ty segs =>
        simp only
        obtain ⟨hs1, hs2⟩ := GetHashMap_segments segs m
        obtain ⟨ih1, ih2⟩ := ih (segs.foldl (fun m text =>
          HashIndex.set m text.Text.Content text.Text.Content) m)
        refine ⟨?_, ?_⟩
        · intro s
          rw [ih1, hs1]
          simp only [List.mem_cons, exists_eq_or_imp, hL, Option.some.injEq,
            Property.richText.injEq]
          constructor
          · rintro ((h | h) | h)
            · exact Or.inl h
            · exact Or.inr (Or.inl ⟨ty, segs, ⟨rfl, rfl⟩, h⟩)
            · exact Or.inr (Or.inr h)
          · rintro (h | ⟨ty2, segs2, ⟨_, hseg⟩, h⟩ | h)
            · exact Or.inl (Or.inl h)
            · subst hseg
              exact Or.inl (Or.inr h)
            · exact Or.inr h
        · intro hinv
          exact ih2 (hs2 hinv)
      | title _ _ | url _ _ | multiSelect _ | select _ | date _ | checkbox _ | createdTime _ =>
        simp only
        obtain ⟨ih1, ih2⟩ := ih m
        refine ⟨?_, ?_⟩
        · intro s
          rw [ih1]
          simp [hL]
        · exact ih2

/-- C3. After the index set-up of `main` (an empty map, then `GetHashMap`), when
the query returns records: a string is a key of the index iff it is the text
(`Text.Content` of a text segment) of the "hash" rich-text property of some
returned record; every key maps to itself; a record with no "hash" property, or
with a "hash" property that is not rich text, adds no key. Membership is what
`AddRssItem` tests with its map lookup. -/
theorem GetHashMap_index (dao : NotionDao) (tr : Trace) (resp : DatabaseQueryResponse)
    (hq : dao.client.databaseQuery tr dao.contentDatabaseId {} = .ok resp) :
    (∀ s, s ∈ (mainGetHash dao tr).2.globalHash.keys ↔
      ∃ r ∈ resp.Results, ∃ ty segs,
        r.Properties.lookup "hash" = some (Property.richText ty segs) ∧
        ∃ text ∈ segs, text.Text.Content = s) ∧
    (∀ s ∈ (mainGetHash dao tr).2.globalHash.keys,
      List.lookup s (mainGetHash dao tr).2.globalHash = some s) ∧
    (∀ s, (List.lookup s (mainGetHash dao tr).2.globalHash).isSome = true ↔
      s ∈ (mainGetHash dao tr).2.globalHash.keys) := by
  obtain ⟨h1, h2⟩ := GetHashMap_records resp.Results []
  have hidx : (mainGetHash dao tr).2.globalHash = resp.Results.foldl (fun m result =>
      match result.Properties.lookup "hash" with
      | some (Property.richText _ hashValue) =>
        hashValue.foldl (fun m text =>
          HashIndex.set m text.Text.Content text.Text.Content) m
      | _ => m) [] := by
    simp [mainGetHash, GetHashMap, hq]
  rw [hidx]
  refine ⟨?_, ?_, ?_⟩
  · intro s
    rw [h1]
    simp [HashIndex.keys]
  · exact h2 (by simp [HashIndex.keys])
  · intro s
    exact lookup_isSome_iff _ s

/-- C3, on the records `hashRecords` and the string "A". -/
theorem GetHashMap_index_witness :
    ("A" ∈ (mainGetHash ⟨"feeds", "content", recordsClient hashRecords, []⟩
        []).2.globalHash.keys ↔
      ∃ r ∈ hashRecords, ∃ ty segs,
        r.Properties.lookup "hash" = some (Property.richText ty segs) ∧
        ∃ text ∈ segs, text.Text.Content = "A") :=
  (GetHashMap_index ⟨"feeds", "content", recordsClient hashRecords, []⟩ []
    { Results := hashRecords } rfl).1 "A"

/-- The scenario of C3 evaluated: a store holding the fingerprints A and B (and
records without one) gives an index with exactly the keys A and B. -/
theorem GetHashMap_scenario :
    (mainGetHash ⟨"feeds", "content", recordsClient hashRecords, []⟩ []).2.globalHash =
      [("A", "A"), ("B", "B")] := by
  decide

/-! ## The claims on the fingerprint -/

theorem append_cancel_of_length (a b c d : String) (hlen : a.length = c.length)
    (h : a ++ b = c ++ d) : a = c ∧ b = d := by
  have h2 : (a ++ b).data = (c ++ d).data := congrArg String.data h
  rw [String.data_append, String.data_append] at h2
  obtain ⟨h3, h4⟩ := List.append_inj h2 hlen
  exact ⟨String.ext h3, String.ext h4⟩

theorem append_left_cancel_iff (p x y : String) : p ++ x = p ++ y ↔ x = y :=
  ⟨fun h => (append_cancel_of_length p x p y rfl h).2, fun h => by rw [h]⟩

/-- The three parts of `Time.String`. -/
theorem Time.String_parts (t : Time) :
    t.String = clockTextOf t.sec t.nsec t.zoneOffset ++ (zoneTextOf t ++ monoTextOf t) := by
  simp only [Time.String, clockTextOf, zoneTextOf, monoTextOf]
  rcases civilDate ((t.sec + t.zoneOffset) / 86400) with ⟨y, m, d⟩
  simp only [String.append_assoc]

/-- `AddRssItem` leaves the trace as it is iff the fingerprint is in the index. -/
theorem AddRssItem_skips_iff (lib : Lib) (dao : NotionDao) (item : RssItem) (tr : Trace) :
    (AddRssItem lib dao item tr).1 = tr ↔ fingerprint item ∈ dao.globalHash.keys := by
  rcases AddRssItem_cases lib dao item tr with ⟨hk, heq⟩ | ⟨hk, req, _, heq⟩
  · simp [heq, hk]
  · simp [heq, hk]

/-- C4, refuted as stated. `itemA` and `itemAEast` have the same title and the
same link, and their timestamps denote the same instant, in UTC and in a zone
eight hours east of it: the strings hashed differ in the rendering of the
timestamp, the fingerprints differ, and with the fingerprint of `itemA` in the
index `AddRssItem` creates a page for `itemAEast`. The fingerprint also changes
with the zone abbreviation at one offset (`itemAEast`, `itemAEastCST`) and with
a monotonic clock reading (`itemA`, `itemAMono`). -/
theorem fingerprint_differs_across_zones :
    itemA.title = itemAEast.title ∧ itemA.link = itemAEast.link ∧
    itemA.published.sameInstant itemAEast.published = true ∧
    hashInput itemA = "Posthttps://example.com/post2006-01-02 15:04:05 +0000 UTC" ∧
    hashInput itemAEast = "Posthttps://example.com/post2006-01-02 23:04:05 +0800 +0800" ∧
    fingerprint itemA = "0d3edd6148741b3d38f8425af931f4ac" ∧
    fingerprint itemAEast = "7643427b9acf92661f61157862948b2b" ∧
    fingerprint itemA ∈ indexedDao.globalHash.keys ∧
    (AddRssItem exampleLib indexedDao itemAEast []).1.length = 1 ∧
    itemAEast.published.sameInstant itemAEastCST.published = true ∧
    hashInput itemAEastCST = "Posthttps://example.com/post2006-01-02 23:04:05 +0800 CST" ∧
    fingerprint itemAEastCST ≠ fingerprint itemAEast ∧
    itemA.published.sameInstant itemAMono.published = true ∧
    hashInput itemAMono =
      "Posthttps://example.com/post2006-01-02 15:04:05 +0000 UTC m=+0.000001000" ∧
    fingerprint itemAMono ≠ fingerprint itemA := by
  decide

/-- C4 as amended. For two items with equal title and equal link string whose
timestamps denote the same instant at the same zone offset, the string hashed
in `AddRssItem` is the same iff the two timestamps print the same zone
abbreviation (an empty abbreviation prints as the offset) followed by the same
monotonic clock reading; when they do, the fingerprint is identical and
`AddRssItem` skips the one iff it skips the other. -/
theorem fingerprint_same_iff_same_zone_text (a b : RssItem) (ht : a.title = b.title)
    (hl : a.link.String = b.link.String)
    (hi : a.published.sameInstant b.published = true)
    (ho : a.published.zoneOffset = b.published.zoneOffset) :
    (stringsJoin [a.title, a.link.String, a.published.String] "" =
        stringsJoin [b.title, b.link.String, b.published.String] "" ↔
      zoneTextOf a.published ++ monoTextOf a.published =
        zoneTextOf b.published ++ monoTextOf b.published) ∧
    (zoneTextOf a.published ++ monoTextOf a.published =
        zoneTextOf b.published ++ monoTextOf b.published →
      fingerprint a = fingerprint b ∧
      ∀ (lib : Lib) (dao : NotionDao) (tr : Trace),
        (AddRssItem lib dao a tr).1 = tr ↔ (AddRssItem lib dao b tr).1 = tr) := by
  simp only [Time.sameInstant, Bool.and_eq_true, decide_eq_true_eq] at hi
  obtain ⟨hs, hn⟩ := hi
  have hin : hashInput a = hashInput b ↔
      zoneTextOf a.published ++ monoTextOf a.published =
        zoneTextOf b.published ++ monoTextOf b.published := by
    simp only [hashInput, ht, hl, String.append_assoc, append_left_cancel_iff]
    rw [Time.String_parts a.published, Time.String_parts b.published, hs, hn, ho,
      append_left_cancel_iff]
  refine ⟨?_, ?_⟩
  · rw [stringsJoin_three, stringsJoin_three]
    exact hin
  · intro hz
    have hf : fingerprint a = fingerprint b := by
      simp only [fingerprint, hin.2 hz]
    refine ⟨hf, ?_⟩
    intro lib dao tr
    rw [AddRssItem_skips_iff, AddRssItem_skips_iff, hf]

/-- C4 as amended, on `itemAEast` and `itemAEastNamed`: two timestamp values for
one instant at the offset of eight hours, one with an empty zone abbreviation
and one with the abbreviation "+0800". -/
theorem fingerprint_same_iff_same_zone_text_witness :
    itemAEast.published ≠ itemAEastNamed.published ∧
    fingerprint itemAEast = fingerprint itemAEastNamed :=
  ⟨by decide,
   ((fingerprint_same_iff_same_zone_text itemAEast itemAEastNamed rfl rfl (by decide)
      rfl).2 (by decide)).1⟩

theorem leBytes_length (n x : Nat) : (leBytes n x).length = n := by
  induction n generalizing x with
  | zero => rfl
  | succ n ih => simp [leBytes, ih]

theorem leBytes_lt (n x : Nat) : ∀ b ∈ leBytes n x, b < 256 := by
  induction n generalizing x with
  | zero => intro b hb; simp [leBytes] at hb
  | succ n ih =>
    intro b hb
    simp only [leBytes, List.mem_cons] at hb
    rcases hb with h | h
    · rw [h]
      exact Nat.mod_lt _ (by decide)
    · exact ih _ b h

/-- An MD5 digest is sixteen bytes. -/
theorem md5Sum_length (msg : List Nat) : (md5Sum msg).length = 16 := by
  simp [md5Sum, leBytes_length]

theorem md5Sum_lt (msg : List Nat) : ∀ b ∈ md5Sum msg, b < 256 := by
  intro b hb
  simp only [md5Sum, List.mem_append] at hb
  rcases hb with ((h | h) | h) | h <;> exact leBytes_lt _ _ b h

theorem hexDigit_injective : ∀ i < 16, ∀ j < 16, hexDigit i = hexDigit j → i = j := by
  decide

theorem hexChars_injective (l1 : List Nat) :
    ∀ l2 : List Nat, (∀ b ∈ l1, b < 256) → (∀ b ∈ l2, b < 256) →
      l1.flatMap (fun b => [hexDigit (b / 16), hexDigit (b % 16)]) =
        l2.flatMap (fun b => [hexDigit (b / 16), hexDigit (b % 16)]) → l1 = l2 := by
  induction l1 with
  | nil =>
    intro l2 _ _ h
    cases l2 with
    | nil => rfl
    | cons b rest => simp [List.flatMap_cons] at h
  | cons a rest ih =>
    intro l2 h1 h2 h
    cases l2 with
    | nil => simp [List.flatMap_cons] at h
    | cons b rest2 =>
      have ha := h1 a (List.mem_cons_self _ _)
      have hb := h2 b (List.mem_cons_self _ _)
      simp only [List.flatMap_cons, List.cons_append, List.nil_append, List.cons.injEq] at h
      obtain ⟨hhi, hlo, hrest⟩ := h
      have e1 := hexDigit_injective (a / 16) (by omega) (b / 16) (by omega) hhi
      have e2 := hexDigit_injective (a % 16) (by omega) (b % 16) (by omega) hlo
      have hab : a = b := by omega
      have hr : rest = rest2 :=
        ih rest2 (fun x hx => h1 x (List.mem_cons_of_mem _ hx))
          (fun x hx => h2 x (List.mem_cons_of_mem _ hx)) hrest
      rw [hab, hr]

/-- Hexadecimal encoding loses nothing on bytes. -/
theorem hexEncodeToString_injective (l1 l2 : List Nat) (h1 : ∀ b ∈ l1, b < 256)
    (h2 : ∀ b ∈ l2, b < 256) (h : hexEncodeToString l1 = hexEncodeToString l2) : l1 = l2 :=
  hexChars_injective l1 l2 h1 h2 (congrArg String.data h)

/-- Two fingerprints are equal iff the two MD5 digests are. -/
theorem fingerprint_eq_iff (a b : RssItem) :
    fingerprint a = fingerprint b ↔
      md5Sum (bytesOf (hashInput a)) = md5Sum (bytesOf (hashInput b)) := by
  constructor
  · intro h
    exact hexEncodeToString_injective _ _ (md5Sum_lt _) (md5Sum_lt _) h
  · intro h
    simp only [fingerprint, h]

theorem hashInput_paddedItem_length (n : Nat) :
    (hashInput (paddedItem n)).length =
      n + (itemB.link.String ++ itemB.published.String).length := by
  show ((String.mk (List.replicate n 'a') ++ itemB.link.String) ++
    itemB.published.String).length = _
  rw [String.append_assoc, String.length_append]
  show (List.replicate n 'a').length + _ = _
  rw [List.length_replicate]

/-- Among the items `paddedItem n`, two hand different strings to the hash and
get the same fingerprint: the digests are sixteen bytes and the items are
infinitely many. -/
theorem exists_fingerprint_collision :
    ∃ n m : Nat, n ≠ m ∧ hashInput (paddedItem n) ≠ hashInput (paddedItem m) ∧
      fingerprint (paddedItem n) = fingerprint (paddedItem m) := by
  obtain ⟨n, m, hne, heq⟩ := Finite.exists_ne_map_eq_of_infinite
    (fun n : Nat => fun i : Fin 16 =>
      (⟨(md5Sum (bytesOf (hashInput (paddedItem n)))).getD i 0 % 256,
        Nat.mod_lt _ (by decide)⟩ : Fin 256))
  refine ⟨n, m, hne, ?_, ?_⟩
  · intro h
    have := congrArg String.length h
    rw [hashInput_paddedItem_length, hashInput_paddedItem_length] at this
    omega
  · rw [fingerprint_eq_iff]
    apply List.ext_getElem
    · rw [md5Sum_length, md5Sum_length]
    · intro i h1 h2
      have hi : i < 16 := by rw [md5Sum_length] at h1; exact h1
      have hfi := congrFun heq ⟨i, hi⟩
      simp only [Fin.mk.injEq] at hfi
      have hb1 := md5Sum_lt _ _ (List.getElem_mem h1)
      have hb2 := md5Sum_lt _ _ (List.getElem_mem h2)
      rw [List.getD_eq_getElem _ _ h1, List.getD_eq_getElem _ _ h2] at hfi
      omega

/-- C5, refuted as stated. `itemSlash1` and `itemSlash2` differ in title and in
link, yet title, link string and timestamp string joined with nothing in
between give the same string, and so the same fingerprint. `itemEpoch0` and
`itemEpoch1` differ in the instant of their timestamps only (one second apart,
in zones one second apart), and `itemAEast` and `itemAEastNamed` in the zone
abbreviation of their timestamps only; in both pairs the two timestamps print
the same string and the fingerprints are equal. And some two items that
differ in the title only hand different strings to the hash and still get the
same fingerprint. -/
theorem fingerprint_equal_for_distinct_items :
    (itemSlash1.title ≠ itemSlash2.title ∧ itemSlash1.link ≠ itemSlash2.link ∧
    itemSlash1.published = itemSlash2.published ∧
    hashInput itemSlash1 = "a/b/c2006-01-02 15:04:05 +0000 UTC" ∧
    hashInput itemSlash2 = "a/b/c2006-01-02 15:04:05 +0000 UTC" ∧
    fingerprint itemSlash1 = fingerprint itemSlash2 ∧
    itemEpoch0.title = itemEpoch1.title ∧ itemEpoch0.link = itemEpoch1.link ∧
    itemEpoch0.published.sameInstant itemEpoch1.published = false ∧
    itemEpoch0.published.String = "1970-01-01 00:00:01 +0000 +0000" ∧
    itemEpoch1.published.String = "1970-01-01 00:00:01 +0000 +0000" ∧
    fingerprint itemEpoch0 = fingerprint itemEpoch1 ∧
    itemAEast.published ≠ itemAEastNamed.published ∧
    itemAEast.published.String = itemAEastNamed.published.String ∧
    fingerprint itemAEast = fingerprint itemAEastNamed) ∧
    ∃ a b : RssItem, a.title ≠ b.title ∧ a.link = b.link ∧ a.published = b.published ∧
      hashInput a ≠ hashInput b ∧ fingerprint a = fingerprint b := by
  refine ⟨by decide, ?_⟩
  obtain ⟨n, m, hne, hin, hf⟩ := exists_fingerprint_collision
  refine ⟨paddedItem n, paddedItem m, ?_, rfl, rfl, hin, hf⟩
  intro h
  exact hin (by simp only [hashInput, h]; rfl)

/-- C5 as amended. `AddRssItem` joins title, link string and timestamp string
with the empty separator and stores the hexadecimal MD5 digest of that string
as the fingerprint. With the fingerprint of one item as the only key of the
index it skips another item iff the MD5 digests of the two strings are equal.
Two items whose strings are equal have the same fingerprint. When the titles
have the same length and the link strings have the same length, two items
that differ in title, link string or timestamp string hand different strings
to the hash. -/
theorem fingerprint_distinct_up_to_md5 (a b : RssItem) (lib : Lib) (client : Client)
    (feedDb contentDb : String) (tr : Trace) :
    (∃ req, AddRssItem lib ⟨feedDb, contentDb, client, []⟩ a tr =
        (tr ++ [Call.pageCreate req], client.pageCreate tr req) ∧
      req.hash = some (hexEncodeToString (md5Sum (bytesOf
        (stringsJoin [a.title, a.link.String, a.published.String] ""))))) ∧
    ((AddRssItem lib ⟨feedDb, contentDb, client, [(fingerprint a, fingerprint a)]⟩ b tr).1 = tr ↔
      md5Sum (bytesOf (stringsJoin [b.title, b.link.String, b.published.String] "")) =
        md5Sum (bytesOf (stringsJoin [a.title, a.link.String, a.published.String] ""))) ∧
    (stringsJoin [a.title, a.link.String, a.published.String] "" =
        stringsJoin [b.title, b.link.String, b.published.String] "" →
      fingerprint a = fingerprint b) ∧
    (a.title.length = b.title.length → a.link.String.length = b.link.String.length →
      (a.title ≠ b.title ∨ a.link.String ≠ b.link.String ∨
        a.published.String ≠ b.published.String) →
      stringsJoin [a.title, a.link.String, a.published.String] "" ≠
        stringsJoin [b.title, b.link.String, b.published.String] "") := by
  simp only [stringsJoin_three]
  refine ⟨?_, ?_, ?_, ?_⟩
  · rcases AddRssItem_cases lib ⟨feedDb, contentDb, client, []⟩ a tr with
      ⟨hk, _⟩ | ⟨_, req, hreq, heq⟩
    · simp [HashIndex.keys] at hk
    · exact ⟨req, heq, hreq⟩
  · rw [AddRssItem_skips_iff]
    have hd : md5Sum (bytesOf (b.title ++ b.link.String ++ b.published.String)) =
        md5Sum (bytesOf (a.title ++ a.link.String ++ a.published.String)) ↔
        fingerprint b = fingerprint a := (fingerprint_eq_iff b a).symm
    rw [hd]
    simp [HashIndex.keys]
  · intro h
    have h' : hashInput a = hashInput b := h
    simp only [fingerprint, h']
  · intro h1 h2 hne h
    simp only [String.append_assoc] at h
    obtain ⟨e1, h'⟩ := append_cancel_of_length _ _ _ _ h1 h
    obtain ⟨e2, e3⟩ := append_cancel_of_length _ _ _ _ h2 h'
    rcases hne with hn | hn | hn
    · exact hn e1
    · exact hn e2
    · exact hn e3

/-- C5 as amended, on `itemA` and `itemA2`, whose titles differ and have the
same length. -/
theorem fingerprint_distinct_up_to_md5_witness :
    stringsJoin [itemA.title, itemA.link.String, itemA.published.String] "" ≠
      stringsJoin [itemA2.title, itemA2.link.String, itemA2.published.String] "" :=
  (fingerprint_distinct_up_to_md5 itemA itemA2 exampleLib okClient "feeds" "content" []).2.2.2
    (by decide) (by decide) (Or.inl (by decide))

/-! ## The claim on the recency cutoff -/

/-- C10. The duration `-1 * time.Hour * time.Duration(24)*365*30` is computed
without overflow of `int64` and is 946,080,000 seconds (10,950 days): the
cutoff that `AddNewContent` hands to `GetRssContent` is that long before `now`,
not 86,400 seconds before it. -/
theorem last24Hours_is_thirty_years (now : Time) (h : now.nsec < 1000000000) :
    wrapInt64 (-1 * Hour * 24 * 365 * 30) = -1 * Hour * 24 * 365 * 30 ∧
    (last24Hours now).sec = now.sec - 946080000 ∧
    (last24Hours now).nsec = now.nsec ∧
    (last24Hours now).sec ≠ now.sec - 86400 ∧
    (∀ (lib : Lib) (G : List FeedDatabaseItem → Time → List RssItem) (dao : NotionDao)
      (tr : Trace), AddNewContent lib G dao now tr =
        AddNewContent lib (fun feeds _ => G feeds (last24Hours now)) dao now tr) := by
  have hd : wrapInt64 (-1 * Hour * 24 * 365 * 30) = (-946080000) * 1000000000 := by decide
  have hs : (last24Hours now).sec = now.sec - 946080000 := by
    rw [last24Hours, hd, (Time.Add_whole_seconds now (-946080000) h).1]
    omega
  refine ⟨by decide, hs, ?_, ?_, fun _ _ _ _ => rfl⟩
  · rw [last24Hours, hd, (Time.Add_whole_seconds now (-946080000) h).2]
  · rw [hs]
    omega

/-- C10, at midnight UTC of November 3, 2025. -/
theorem last24Hours_is_thirty_years_witness :
    (last24Hours t2025).sec = t2025.sec - 946080000 :=
  (last24Hours_is_thirty_years t2025 (by decide)).2.1

/-- C10 evaluated at midnight UTC of November 3, 2025: the cutoff is November
11, 1995, and not November 2, 2025. -/
theorem last24Hours_scenario :
    (last24Hours t2025).String = "1995-11-11 00:00:00 +0000 UTC" ∧
    (t2025.Add (-86400 * 1000000000)).String = "2025-11-02 00:00:00 +0000 UTC" := by
  decide

end NotionRss
